import Mathlib

/-!
Shallow embedding of the normalization pipeline of the BibleOrgSys
repository (marker-line reader `USFMFile.py`, OSIS XML walker
`OSISXMLBible.py`, and the Bible-level aggregation in `InternalBible.py`),
together with theorems settling the frozen claims about it.

Python strings are embedded as `List Char` (`PStr`); Python dictionaries
(which preserve insertion order and keep a key at its original position on
overwrite) as ordered association lists with the update operation
`assocSet`.  Fallible paths (unreachable Python crashes) are modelled by
explicit outcome tags.  Module-level flags: `BibleOrgSysGlobals.debugFlag`
is taken to be `False` (normal, non-debug operation), so `assert`
statements and `halt` calls guarded by it drop out; `verbosityLevel` is
threaded as an explicit parameter where a claim depends on it.
-/

namespace BibleOrgSys

/-- Embedding of a Python `str` as a list of characters. -/
abbrev PStr := List Char

/-- The ASCII apostrophe (39), used by the Python `repr` of a plain string
when it is spliced into an error message with `{!r}`. -/
def sq : Char := Char.ofNat 39

/-- Python `repr` of a string that contains no quote or escape-worthy
characters: the string wrapped in apostrophes. -/
def pyRepr (s : PStr) : PStr := sq :: s ++ [sq]

/-- Does `s` start with `pre`?  (Python `s.startswith(pre)`.) -/
def startsWithL : PStr → PStr → Bool
  | _, [] => true
  | [], _ :: _ => false
  | c :: s, d :: p => c == d && startsWithL s p

/-- Does `s` end with `suf`?  (Python `s.endswith(suf)`.) -/
def endsWithL (s suf : PStr) : Bool := startsWithL s.reverse suf.reverse

/-- Does `s` contain `pat` as a contiguous substring?
(Python `pat in s` for strings.) -/
def hasSubL (pat : PStr) : PStr → Bool
  | [] => startsWithL [] pat
  | c :: s => startsWithL (c :: s) pat || hasSubL pat s

/-- Index of the first character satisfying `p`, if any. -/
def pyFindIdx (p : Char → Bool) : PStr → Option Nat
  | [] => none
  | c :: s => if p c then some 0 else (pyFindIdx p s).map (· + 1)

/-- Python `s.split(sep)` for a single separator character: splitting the
empty string gives `[""]`, and separators delimit (possibly empty) fields. -/
def splitOnCharL (sep : Char) : PStr → List PStr
  | [] => [[]]
  | c :: rest =>
    if c = sep then [] :: splitOnCharL sep rest
    else
      match splitOnCharL sep rest with
      | s :: ss => (c :: s) :: ss
      | [] => [[c]]

/-- Number of occurrences of a character (Python `s.count(c)` for a
single-character needle). -/
def countCharL (c : Char) (s : PStr) : Nat := (s.filter (· == c)).length

/-- Python `s.lower()` (ASCII-adequate embedding). -/
def pyLower (s : PStr) : PStr := s.map Char.toLower

/-- Ordered-dictionary lookup on an association list. -/
def lookupL {α : Type} (k : PStr) : List (PStr × α) → Option α
  | [] => none
  | (k2, v) :: rest => if k = k2 then some v else lookupL k rest

/-- Ordered-dictionary update `d[k] = v`: a Python dict keeps an existing
key at its original position and appends a new key at the end. -/
def assocSet {α : Type} (k : PStr) (v : α) : List (PStr × α) → List (PStr × α)
  | [] => [(k, v)]
  | (k2, v2) :: rest => if k = k2 then (k, v) :: rest else (k2, v2) :: assocSet k v rest

/-! ## MarkerLineParser: `USFMFile.py` -/

/-- `USFMFile.DUMMY_VALUE`: "Some number bigger than the number of
characters in a line" (source comment), used as the not-found sentinel. -/
def DUMMY_VALUE : Nat := 999999

/-- `lineAfterBackslash.find(c)` followed by the source's
`if si==-1: si = DUMMY_VALUE` normalization. -/
def findOrDummy (c : Char) (l : PStr) : Nat :=
  match pyFindIdx (· == c) l with
  | some i => i
  | none => DUMMY_VALUE

/-- `USFMFile.splitMarkerText`: given a line (may be empty), return the
backslash marker (`none` if there is not one) and the text.  The marker
ends at the first space (dropped), asterisk (kept) or further backslash
(not consumed). -/
def splitMarkerText (line : PStr) : Option PStr × PStr :=
  match line with
  | [] => (none, [])
  | c :: lineAfterBackslash =>
    if c ≠ '\\' then (none, line)
    else
      let si1 := findOrDummy ' ' lineAfterBackslash
      let si2 := findOrDummy '*' lineAfterBackslash
      let si3 := findOrDummy '\\' lineAfterBackslash
      let si := min si1 (min si2 si3)
      if si = DUMMY_VALUE then (some lineAfterBackslash, [])
      else if si = si3 then (some (lineAfterBackslash.take si3), lineAfterBackslash.drop si3)
      else if si = si2 then
        (some (lineAfterBackslash.take (si2 + 1)), lineAfterBackslash.drop (si2 + 1))
      else (some (lineAfterBackslash.take si1), lineAfterBackslash.drop (si1 + 1))

/-- The duplicated inline marker-splitting logic of `USFMFile.read`
(source lines 164-185), applied to `line[1:]`.  Unlike `splitMarkerText`
it always yields a marker, because `read` reaches it for any
non-continuation line. -/
def readSplit (lineAfterBackslash : PStr) : PStr × PStr :=
  let si1 := findOrDummy ' ' lineAfterBackslash
  let si2 := findOrDummy '*' lineAfterBackslash
  let si3 := findOrDummy '\\' lineAfterBackslash
  let si := min si1 (min si2 si3)
  if si ≠ DUMMY_VALUE then
    if si = si3 then (lineAfterBackslash.take si3, lineAfterBackslash.drop si3)
    else if si = si2 then
      (lineAfterBackslash.take (si2 + 1), lineAfterBackslash.drop (si2 + 1))
    else (lineAfterBackslash.take si1, lineAfterBackslash.drop (si1 + 1))
  else (lineAfterBackslash, [])

/-- One event of iterating the opened text file: either a successfully
decoded physical line (as delivered by Python file iteration, so with its
trailing newline except possibly on the last line), or a line whose bytes
fail to decode, which makes the iterator raise `UnicodeError`. -/
inductive SFMLine
  | good (s : PStr)
  | bad
  deriving DecidableEq

/-- The U+FEFF byte-order mark tested for on the first line. -/
def bomChar : Char := Char.ofNat 65279

/-- The `logging.error` message of source line 151. -/
def nonUSFMLineMsg (fn : PStr) (lineCount : Nat) : PStr :=
  ("Non-USFM line in ").data ++ fn ++ (" -- line ignored at #").data ++ (Nat.repr lineCount).data

/-- The `logging.critical` message of source line 193. -/
def invalidLineMsg (fn : PStr) (lineCount : Nat) : PStr :=
  ("Invalid line in ").data ++ fn ++ (" -- line ignored at #").data ++ (Nat.repr lineCount).data

/-- The loop body of `USFMFile.read` (source lines 136-189) together with
the `except UnicodeError` handler that wraps the whole loop (lines
191-196).  State: entries accumulated so far, the most recently parsed
marker (the Python local `marker`, unset before the first marker line),
the line counter, and the log messages emitted.  A `bad` event models the
file iterator raising `UnicodeError`: the exception is caught OUTSIDE the
`for` loop, so reading stops and the remaining events are never seen. -/
def readGo (fn : PStr) (verbosityLevel : Nat) (ignoreSFMs : List PStr) :
    List SFMLine → Nat → Option PStr → List (PStr × PStr) → List PStr →
    List (PStr × PStr) × List PStr
  | [], _, _, result, logs => (result, logs)
  | .bad :: _, lineCount, _, result, logs =>
      -- the UnicodeError propagates out of the for loop and is caught there
      (result, logs ++ [invalidLineMsg fn lineCount])
  | .good rawLine :: restLines, lineCount, marker, result, logs =>
      let n := lineCount + 1
      let line0 := if n = 1 ∧ rawLine.head? = some bomChar then rawLine.drop 1 else rawLine
      let line := if line0.getLast? = some '\n' then line0.dropLast else line0
      if line.isEmpty then readGo fn verbosityLevel ignoreSFMs restLines n marker result logs
      else if line.head? = some '#' then
        readGo fn verbosityLevel ignoreSFMs restLines n marker result logs
      else if line.head? ≠ some '\\' ∧ result.isEmpty then
        -- source lines 149-155: only a (verbosity-guarded) log, and NO
        -- `continue`: control falls through to the marker-splitting code
        -- below with line[1:], i.e. the first character stripped
        let logs2 := if verbosityLevel > 2 then logs ++ [nonUSFMLineMsg fn n] else logs
        let (mk, text) := readSplit (line.drop 1)
        let result2 := if mk ∈ ignoreSFMs then result else result ++ [(mk, text)]
        readGo fn verbosityLevel ignoreSFMs restLines n (some mk) result2 logs2
      else if line.head? ≠ some '\\' then
        -- continuation line (source lines 156-162); `result` is nonempty
        -- here, which in the source guarantees `marker` is bound
        if (marker.getD []) ∈ ignoreSFMs then
          readGo fn verbosityLevel ignoreSFMs restLines n marker result logs
        else
          match result.getLast? with
          | some (oldmarker, oldtext) =>
              readGo fn verbosityLevel ignoreSFMs restLines n marker
                (result.dropLast ++ [(oldmarker, oldtext ++ ' ' :: line)]) logs
          | none => readGo fn verbosityLevel ignoreSFMs restLines n marker result logs
      else
        let (mk, text) := readSplit (line.drop 1)
        let result2 := if mk ∈ ignoreSFMs then result else result ++ [(mk, text)]
        readGo fn verbosityLevel ignoreSFMs restLines n (some mk) result2 logs

/-- `USFMFile.read` for a UTF-8 file, as the function from the sequence of
line events to the final `self.lines` value plus the log messages. -/
def USFMFile_read (fn : PStr) (verbosityLevel : Nat) (ignoreSFMs : List PStr)
    (input : List SFMLine) : List (PStr × PStr) × List PStr :=
  readGo fn verbosityLevel ignoreSFMs input 0 none [] []

/-! ## The `clean` helper of `OSISXMLBible.py` (source lines 196-227) -/

/-- Python truthiness of an optional string parameter defaulting to
`None`: truthy iff present and nonempty. -/
def pyTruthy (o : Option PStr) : Bool :=
  match o with
  | some s => !s.isEmpty
  | none => false

/-- The `while result.endswith('\n') or result.endswith('\r')` loop of
`clean`: drop all trailing newline and carriage-return characters. -/
def dropTrailingNL (s : PStr) : PStr :=
  (s.reverse.dropWhile (fun c => c == '\n' || c == '\r')).reverse

/-- The net effect of `result.replace('\r\n',' ').replace('\n',' ')
.replace('\r',' ')`: each CRLF pair becomes one space, each remaining LF
or CR becomes a space. -/
def replaceCRLF : PStr → PStr
  | [] => []
  | '\r' :: '\n' :: rest => ' ' :: replaceCRLF rest
  | c :: rest => (if c = '\n' ∨ c = '\r' then ' ' else c) :: replaceCRLF rest

/-- The fixpoint of the `while '  ' in result: result = result.replace('  ',' ')`
loop of `clean`: every maximal run of spaces collapses to a single space
(collapsing from the right gives the same fixpoint). -/
def collapseSpaces : PStr → PStr
  | [] => []
  | c :: rest =>
    if c = ' ' ∧ (collapseSpaces rest).head? = some ' ' then collapseSpaces rest
    else c :: collapseSpaces rest

/-- The `info` suffix built from the optional `location` and
`verseMilestone` arguments of `clean`. -/
def cleanInfo (location verseMilestone : Option PStr) : PStr :=
  (if pyTruthy location then (" at ").data ++ location.getD [] else []) ++
    (if pyTruthy verseMilestone then (" at ").data ++ verseMilestone.getD [] else [])

/-- Source line 213 warning (`t` is the identity outside debug mode). -/
def msgMultipleSpaces (result info : PStr) : PStr :=
  ("clean: found multiple spaces in ").data ++ pyRepr result ++ info

/-- Source line 217 warning. -/
def msgTab (result info : PStr) : PStr :=
  ("clean: found tab in ").data ++ pyRepr result ++ info

/-- Source line 222 error. -/
def msgCRLF (result info : PStr) : PStr :=
  ("clean: found CR or LF characters in ").data ++ pyRepr result ++ info

/-- `loadErrors.append(msg)` guarded by `if loadErrors is not None`. -/
def appendErr (loadErrors : Option (List PStr)) (msg : PStr) : Option (List PStr) :=
  loadErrors.map (· ++ [msg])

/-- `OSISXMLBible.clean`: strip trailing newlines, replace tabs and
internal CR/LF by spaces, collapse space runs, and report tabs, internal
CR/LF and multiple spaces to `loadErrors` when that list is supplied.
Returns the cleaned text (or `none` for `None` input) and the updated
`loadErrors`. -/
def clean (elementText : Option PStr) (loadErrors : Option (List PStr))
    (location verseMilestone : Option PStr) : Option PStr × Option (List PStr) :=
  match elementText with
  | none => (none, loadErrors)
  | some text =>
    let info := cleanInfo location verseMilestone
    let result := dropTrailingNL text
    let le1 := if hasSubL [' ', ' '] result then appendErr loadErrors (msgMultipleSpaces result info)
               else loadErrors
    let le2 := if result.contains '\t' then appendErr le1 (msgTab result info) else le1
    let result1 := if result.contains '\t' then
                     result.map (fun c => if c = '\t' then ' ' else c)
                   else result
    let le3 := if result1.contains '\n' || result1.contains '\r' then
                 appendErr le2 (msgCRLF result1 info)
               else le2
    let result2 := if result1.contains '\n' || result1.contains '\r' then replaceCRLF result1
                   else result1
    (some (collapseSpaces result2), le3)

/-! ## XMLDialectParser (dialect A): the OSIS milestone walkers

`validateChapterElement` and `validateVerseElement` are closures inside
`OSISXMLBible.validateAndExtractBookDiv`; their `nonlocal`/`self` state is
made explicit in `OsisState`.  `BibleOrgSysGlobals.debugFlag` is `False`
(normal operation), so debug-only asserts and halts drop out; the
unconditional `halt` on the unrecognized-verse-milestone path and the
`AttributeError`/`IndexError` crashes on `None` values are modelled by the
`halted` flag. -/

/-- Python `str.upper()` (ASCII-adequate embedding). -/
def pyUpper (s : PStr) : PStr := s.map Char.toUpper

/-- Python `str.strip()` on ASCII whitespace. -/
def pyStrip (s : PStr) : PStr :=
  let ws : Char → Bool := fun c => c == ' ' || c == '\t' || c == '\n' || c == '\r'
  ((s.dropWhile ws).reverse.dropWhile ws).reverse

/-- An XML element as seen by the OSIS walkers: its (namespace-stripped)
tag, its attributes in document order, its number of child elements
(`len(element)`), and its `text` and `tail` fields. -/
structure OsisElement where
  tag : PStr
  attrs : List (PStr × PStr)
  childCount : Nat
  text : Option PStr
  tail : Option PStr
  deriving DecidableEq

/-- Modelled from the spec: the external BookRegistry collaborator
(`BibleOrgSysGlobals.BibleBooksCodes`, not under src/), a pure lookup
table service mapping an OSIS book identifier to the canonical book code
and a code to its USFM abbreviation and number.  `getBBBFromOSIS` returns
`none` where the source raises (and catches) `KeyError`; the source's
multiple-alternative list results are collapsed to their first element,
exactly as lines 1018-1020 and 1060 of `OSISXMLBible.py` do.  Returned
codes are nonempty strings (the 3-letter code space), so `some` coincides
with Python truthiness. -/
structure OsisTables where
  getBBBFromOSIS : PStr → Option PStr
  getUSFMAbbreviation : PStr → PStr
  getUSFMNumber : PStr → PStr

/-- The parser state threaded through the book-division walker: the
`nonlocal` variables of `validateAndExtractBookDiv` (`BBB`,
`USFMAbbreviation`, `USFMNumber`, `mainDivOsisID`, `haveEIDs`, `foundH`),
the Bible object fields (`thisBook` raw lines, the saved-books registry of
`InternalBible.saveBook`, `haveBook`), the accumulating `loadErrors`, and
a `halted` flag marking paths where the source raises. -/
structure OsisState where
  BBB : PStr
  USFMAbbreviation : PStr
  USFMNumber : PStr
  mainDivOsisID : PStr
  thisBook : List (PStr × PStr)
  books : List (PStr × List (PStr × PStr))
  haveBook : Bool
  haveEIDs : Bool
  foundH : Bool
  loadErrors : List PStr
  halted : Bool
  deriving DecidableEq

/-- Modelled from the spec: `BibleBook.addLine` (class `BibleBook` is not
under src/) appends a new (marker, text) line to the book. -/
def addLine (marker text : PStr) (book : List (PStr × PStr)) : List (PStr × PStr) :=
  book ++ [(marker, text)]

/-- Modelled from the spec: `BibleBook.appendToLastLine` (not under src/)
concatenates onto the text of the most recently appended line. -/
def appendToLastLine (extra : PStr) (book : List (PStr × PStr)) : List (PStr × PStr) :=
  match book.getLast? with
  | some (m, t) => book.dropLast ++ [(m, t ++ extra)]
  | none => book

/-- `InternalBible.saveBook` (source lines 438-456) as its effect on the
ordered book registry: registering under the code, overwriting (with only
a `logging.critical`, no `loadErrors` entry) an already-present code.  The
name-dictionary rebuild from `BibleBook.getAssumedBookNames` touches only
the name indexes modelled separately in `GuessState`. -/
def saveBook (BBB : PStr) (bookLines : List (PStr × PStr))
    (books : List (PStr × List (PStr × PStr))) : List (PStr × List (PStr × PStr)) :=
  assocSet BBB bookLines books

/-- Modelled from the spec: `BibleOrgSysGlobals.checkXMLNoText` (not under
src/) appends a structural warning when the element has (truthy) text. -/
def checkXMLNoText (element : OsisElement) (location : PStr) (st : OsisState) : OsisState :=
  if pyTruthy element.text then
    { st with loadErrors := st.loadErrors ++ [("Unexpected text in ").data ++ location] }
  else st

/-- Modelled from the spec: `BibleOrgSysGlobals.checkXMLNoTail` (not under
src/) appends a structural warning when the element has (truthy) tail text. -/
def checkXMLNoTail (element : OsisElement) (location : PStr) (st : OsisState) : OsisState :=
  if pyTruthy element.tail then
    { st with loadErrors := st.loadErrors ++ [("Unexpected tail in ").data ++ location] }
  else st

/-- Python rendering of `element.items()` inside a format string. -/
def attrsRepr (attrs : List (PStr × PStr)) : PStr :=
  ("[").data ++
    List.intercalate (", ").data
      (attrs.map fun p => ("(").data ++ pyRepr p.1 ++ (", ").data ++ pyRepr p.2 ++ (")").data) ++
    ("]").data

/-- The `Unprocessed {!r} attribute ({}) in {} subelement of {} (code)`
diagnostic of the attribute loops. -/
def unprocessedAttrMsg (code attrib value displayTag location : PStr) : PStr :=
  ("Unprocessed ").data ++ pyRepr attrib ++ (" attribute (").data ++ value ++ (") in ").data ++
    displayTag ++ (" subelement of ").data ++ location ++ (" (").data ++ code ++ (")").data

def msgMissingChapterIDAttr (location : PStr) (attrs : List (PStr × PStr)) : PStr :=
  ("Missing chapter ID attribute in ").data ++ location ++ (": ").data ++ attrsRepr attrs

def msgUnexpectedChapterMilestone (attrs : List (PStr × PStr)) (vm location : PStr) : PStr :=
  ("Unexpected ").data ++ attrsRepr attrs ++ (" chapter milestone while ").data ++ vm ++
    (" verse milestone is still open at ").data ++ location

def msgChapterEndMismatch (eid cm location : PStr) : PStr :=
  ("Chapter milestone ").data ++ eid ++ (" end didn").data ++ [sq] ++ ("t match ").data ++ cm ++
    (" at ").data ++ location

def msgUnrecognizedChapterMilestone (location : PStr) (attrs : List (PStr × PStr)) : PStr :=
  ("Unrecognized chapter milestone in ").data ++ location ++ (": ").data ++ attrsRepr attrs ++
    (" at ").data ++ location

def msgMissingChapterIDFor (cm location : PStr) : PStr :=
  ("Missing chapter ID for ").data ++ cm ++ (" at ").data ++ location

def msgChapterIDWrongFormat (osisID cm location : PStr) : PStr :=
  osisID ++ (" chapter ID seems wrong format for ").data ++ cm ++ (" at ").data ++ location

def msgInvalidOSISBookID (b : PStr) : PStr :=
  pyRepr b ++ (" is not a valid OSIS book identifier").data

def msgMissingVerseAttributes (location : PStr) (attrs : List (PStr × PStr)) : PStr :=
  ("Missing verse attributes in ").data ++ location ++ (": ").data ++ attrsRepr attrs

def msgGotVerseMilestoneWhileOpen (sid vm location : PStr) : PStr :=
  ("Got a ").data ++ sid ++ (" verse milestone while ").data ++ vm ++
    (" is still open at ").data ++ location

def msgVerseMilestoneWrongInContainer (vm cm location : PStr) : PStr :=
  pyRepr vm ++ (" verse milestone seems wrong in ").data ++ pyRepr cm ++
    (" chapter milestone at ").data ++ location

def msgVerseMilestonePrefix (vm cm location : PStr) : PStr :=
  ("This ").data ++ pyRepr vm ++ (" verse milestone seems wrong in ").data ++ pyRepr cm ++
    (" chapter milestone at ").data ++ location

def msgVerseEndMismatch (vm eid location : PStr) : PStr :=
  pyRepr vm ++ (" verse milestone end didn").data ++ [sq] ++ ("t match last end milestone ").data ++
    pyRepr eid ++ (" at ").data ++ location

def msgVerseEndNoStart (eid location : PStr) : PStr :=
  ("Have ").data ++ pyRepr eid ++
    (" verse end milestone but no verse start milestone encountered at ").data ++ location

def msgMultipleHyphens (vm : PStr) : PStr :=
  ("Shouldn").data ++ [sq] ++ ("t have multiple hyphens in verse milestone ").data ++ pyRepr vm

def msgExpectedThreeBefore (vm : PStr) : PStr :=
  ("Expected three components before hyphen in verse milestone ").data ++ pyRepr vm

def msgExpectedThreeAfter (vm : PStr) : PStr :=
  ("Expected three components after hyphen in verse milestone ").data ++ pyRepr vm

/-- Attribute values recognized by the chapter attribute loop. -/
structure ChapAttrs where
  OSISChapterID : Option PStr := none
  sID : Option PStr := none
  eID : Option PStr := none
  chapterN : Option PStr := none
  canonical : Option PStr := none
  chapterTitle : Option PStr := none

/-- The `for attrib,value in element.items()` loop of
`validateChapterElement` (source lines 964-974): recognized attributes are
bound, unrecognized ones produce a diagnostic in encounter order. -/
def chapAttrFold (displayTag location : PStr) :
    List (PStr × PStr) → ChapAttrs → ChapAttrs × List PStr
  | [], acc => (acc, [])
  | (attrib, value) :: rest, acc =>
    if attrib = ("osisID").data then
      chapAttrFold displayTag location rest { acc with OSISChapterID := some value }
    else if attrib = ("sID").data then
      chapAttrFold displayTag location rest { acc with sID := some value }
    else if attrib = ("eID").data then
      chapAttrFold displayTag location rest { acc with eID := some value }
    else if attrib = ("n").data then
      chapAttrFold displayTag location rest { acc with chapterN := some value }
    else if attrib = ("canonical").data then
      chapAttrFold displayTag location rest { acc with canonical := some value }
    else if attrib = ("chapterTitle").data then
      chapAttrFold displayTag location rest { acc with chapterTitle := some value }
    else
      let (a, msgs) := chapAttrFold displayTag location rest acc
      (a, unprocessedAttrMsg ("5f3d").data attrib value displayTag location :: msgs)

/-- The suffix of the generated `id` line (source line 1055), with
`ProgName` and `ProgVersion` of `OSISXMLBible.py` spliced in. -/
def convertedSuffix : PStr :=
  (" converted to USFM from OSIS by OSIS XML Bible format handler V0.47").data

/-- The content the previous book ends up holding when a book change
saves it (source lines 1035-1057): the trailing line is popped and, when
it is a section heading (`s`), kept out of the popped position while the
generated `id`, `h` and `mt1` lines are appended to the already-saved
book object through the still-aliased `thisBook` reference. -/
def finalizedOldBook (st : OsisState) : List (PStr × PStr) :=
  match st.thisBook.getLast? with
  | some (m, t) =>
    if m = ("s").data then
      st.thisBook.dropLast ++
        [(("id").data,
          pyUpper (if st.USFMAbbreviation ≠ [] then st.USFMAbbreviation
                   else st.mainDivOsisID) ++ convertedSuffix),
         (("h").data,
          if st.USFMAbbreviation ≠ [] then st.USFMAbbreviation else st.mainDivOsisID),
         (("mt1").data, t)]
    else st.thisBook
  | none => st.thisBook

def chapterBookSwitch (tables : OsisTables) (cmBBB cm : PStr) (st : OsisState) :
    PStr × OsisState :=
  let (cm2, st2) :=
    if st.BBB ≠ [] ∧ st.thisBook.length > 5 then
      ([], { st with books := saveBook st.BBB (finalizedOldBook st) st.books, foundH := false })
    else (cm, st)
  (cm2, { st2 with BBB := cmBBB,
                   USFMAbbreviation := tables.getUSFMAbbreviation cmBBB,
                   USFMNumber := tables.getUSFMNumber cmBBB,
                   thisBook := [], haveBook := true })

/-- `validateChapterElement` (source lines 949-1079): classify the element
as a start milestone, an end milestone or a container, emit the associated
diagnostics, handle a book change, add the `c` line, and return the new
chapter milestone (the OSIS chapter ID for a start, the empty string for a
matched end, `chapterContainer.`-prefixed ID for a container). -/
def validateChapterElement (tables : OsisTables) (element : OsisElement)
    (chapterMilestone verseMilestone locationDescription : PStr) (st0 : OsisState) :
    PStr × OsisState :=
  let location := ("validateChapterElement: ").data ++ locationDescription
  let st := checkXMLNoText element (location ++ (" at ").data ++ verseMilestone) st0
  let st := checkXMLNoTail element (location ++ (" at ").data ++ verseMilestone) st
  let p := chapAttrFold element.tag location element.attrs {}
  let a := p.1
  let st := { st with loadErrors := st.loadErrors ++ p.2 }
  let st := if pyTruthy a.sID ∧ ¬ pyTruthy a.OSISChapterID then
              { st with loadErrors := st.loadErrors ++ [msgMissingChapterIDAttr location element.attrs] }
            else st
  if element.childCount = 0 ∧ (pyTruthy a.sID ∨ pyTruthy a.eID ∨ pyTruthy a.OSISChapterID) then
    let st := if verseMilestone ≠ [] ∧ st.haveEIDs then
                { st with loadErrors :=
                    st.loadErrors ++ [msgUnexpectedChapterMilestone element.attrs verseMilestone location] }
              else st
    -- classification, source lines 986-1000
    let q :=
      if pyTruthy a.OSISChapterID ∧ pyTruthy a.sID ∧ ¬ pyTruthy a.eID then
        (a.sID.getD [], st)
      else if pyTruthy a.eID ∧ ¬ pyTruthy a.OSISChapterID ∧ ¬ pyTruthy a.sID then
        if chapterMilestone ≠ [] ∧ a.eID.getD [] = chapterMilestone then ([], st)
        else (chapterMilestone,
              { st with loadErrors :=
                  st.loadErrors ++ [msgChapterEndMismatch (a.eID.getD []) chapterMilestone location] })
      else if pyTruthy a.OSISChapterID ∧ ¬ (pyTruthy a.sID ∨ pyTruthy a.eID) then
        (a.OSISChapterID.getD [], st)
      else
        (chapterMilestone,
         { st with loadErrors :=
             st.loadErrors ++ [msgUnrecognizedChapterMilestone location element.attrs] })
    let cm := q.1
    let st := q.2
    if cm ≠ [] then
      if ¬ pyTruthy a.OSISChapterID then
        (cm, { st with loadErrors := st.loadErrors ++ [msgMissingChapterIDFor cm location] })
      else
        let osisID := a.OSISChapterID.getD []
        let st := if countCharL '.' osisID ≠ 1 then
                    { st with loadErrors := st.loadErrors ++ [msgChapterIDWrongFormat osisID cm location] }
                  else st
        let bits := splitOnCharL '.' osisID
        let cmBBBOpt := tables.getBBBFromOSIS (bits.headD [])
        let st := if cmBBBOpt = none then
                    { st with loadErrors := st.loadErrors ++ [msgInvalidOSISBookID (bits.headD [])] }
                  else st
        let r :=
          match cmBBBOpt with
          | some b => if b ≠ st.BBB then chapterBookSwitch tables b cm st else (cm, st)
          | none => (cm, st)
        (r.1, { r.2 with thisBook := addLine ("c").data (bits.getD 1 []) r.2.thisBook })
    else (cm, st)
  else
    -- chapter container, source lines 1074-1078 (`OSISChapterID.split` on
    -- `None` raises AttributeError)
    match a.OSISChapterID with
    | none => ([], { st with halted := true })
    | some i => (("chapterContainer.").data ++ i, st)

/-- Attribute values recognized by the verse attribute loop. -/
structure VerseAttrs where
  OSISVerseID : Option PStr := none
  sID : Option PStr := none
  eID : Option PStr := none
  n : Option PStr := none

/-- The `for attrib,value in element.items()` loop of
`validateVerseElement` (source lines 1104-1112). -/
def verseAttrFold (displayTag location : PStr) :
    List (PStr × PStr) → VerseAttrs → VerseAttrs × List PStr
  | [], acc => (acc, [])
  | (attrib, value) :: rest, acc =>
    if attrib = ("osisID").data then
      verseAttrFold displayTag location rest { acc with OSISVerseID := some value }
    else if attrib = ("sID").data then
      verseAttrFold displayTag location rest { acc with sID := some value }
    else if attrib = ("eID").data then
      verseAttrFold displayTag location rest { acc with eID := some value }
    else if attrib = ("n").data then
      verseAttrFold displayTag location rest { acc with n := some value }
    else
      let (a, msgs) := verseAttrFold displayTag location rest acc
      (a, unprocessedAttrMsg ("8jh6").data attrib value displayTag location :: msgs)

/-- `validateVerseElement` (source lines 1082-1207): classify the element
as a verse start milestone (emitting the `v` line, with combined-verse
ranges split on the hyphen), an end milestone (closing any open milestone,
returning the empty string), or a verse container.  The unrecognized
milestone branch runs an unguarded `halt`, and container handling raises
on a missing `osisID` or `text`; those paths set `halted`. -/
def validateVerseElement (element : OsisElement)
    (verseMilestone chapterMilestone locationDescription : PStr) (st0 : OsisState) :
    PStr × OsisState :=
  let location := ("validateVerseElement: ").data ++ locationDescription
  let verseText := element.text
  let p := verseAttrFold element.tag location element.attrs {}
  let a := p.1
  let st := { st0 with loadErrors := st0.loadErrors ++ p.2 }
  -- `if sID and eID:` on line 1115 is a logging.critical with no
  -- loadErrors entry, hence no observable state change here
  let st := if pyTruthy a.sID ∧ ¬ pyTruthy a.OSISVerseID then
              { st with loadErrors := st.loadErrors ++ [msgMissingVerseAttributes location element.attrs] }
            else st
  if element.childCount = 0 ∧ (pyTruthy a.sID ∨ pyTruthy a.eID) then
    if pyTruthy a.sID ∧ pyTruthy a.OSISVerseID ∧ ¬ pyTruthy a.eID then
      -- start milestone
      let st := if verseMilestone ≠ [] ∧ st.haveEIDs then
                  { st with loadErrors :=
                      st.loadErrors ++ [msgGotVerseMilestoneWhileOpen (a.sID.getD []) verseMilestone location] }
                else st
      let vm := a.sID.getD []
      let vmBits := splitOnCharL '.' vm
      let cmBits := splitOnCharL '.' chapterMilestone
      let st :=
        if startsWithL chapterMilestone ("chapterContainer.").data then
          if ¬ startsWithL vm (chapterMilestone.drop 17) then
            { st with loadErrors :=
                st.loadErrors ++ [msgVerseMilestoneWrongInContainer vm chapterMilestone location] }
          else st
        else if vmBits.take 2 ≠ cmBits.take 2 then
          { st with loadErrors :=
              st.loadErrors ++ [msgVerseMilestonePrefix vm chapterMilestone location] }
        else st
      if vm ≠ [] then
        let st :=
          if vm.contains '-' then
            let chunks := splitOnCharL '-' vm
            let st := if chunks.length ≠ 2 then
                        { st with loadErrors := st.loadErrors ++ [msgMultipleHyphens vm] }
                      else st
            let bits1 := splitOnCharL '.' (chunks.headD [])
            let st := if bits1.length ≠ 3 then
                        { st with loadErrors := st.loadErrors ++ [msgExpectedThreeBefore vm] }
                      else st
            let bits2 := splitOnCharL '.' (chunks.getD 1 [])
            let r :=
              if bits2.length ≠ 3 then
                ([bits1.headD [], bits1.getD 1 [], ("999").data],
                 { st with loadErrors := st.loadErrors ++ [msgExpectedThreeAfter vm] })
              else (bits2, st)
            { r.2 with thisBook := addLine ("v").data (bits1.getD 2 [] ++ '-' :: r.1.getD 2 []) r.2.thisBook }
          else
            let bits := splitOnCharL '.' vm
            { st with thisBook := addLine ("v").data (bits.getD 2 [] ++ [' ']) st.thisBook }
        let vTail := (clean element.tail none none none).1
        let st := if pyTruthy vTail then
                    { st with thisBook := appendToLastLine (vTail.getD []) st.thisBook }
                  else st
        (vm, st)
      else ([], { st with halted := true })  -- unreachable: sID was truthy
    else if pyTruthy a.eID ∧ ¬ pyTruthy a.OSISVerseID ∧ ¬ pyTruthy a.sID then
      -- end milestone, source lines 1145-1156
      let st := { st with haveEIDs := true }
      let st :=
        if verseMilestone ≠ [] then
          if a.eID.getD [] = verseMilestone then st
          else { st with loadErrors :=
                   st.loadErrors ++ [msgVerseEndMismatch verseMilestone (a.eID.getD []) location] }
        else { st with loadErrors := st.loadErrors ++ [msgVerseEndNoStart (a.eID.getD []) location] }
      ([], st)
    else
      -- source lines 1157-1160: logging.critical, then an unguarded `halt`
      ([], { st with halted := true })
  else
    -- verse container, source lines 1191-1204
    let st := checkXMLNoTail element (location ++ (" at ").data ++ verseMilestone) st
    match a.OSISVerseID with
    | none => ([], { st with halted := true })  -- `None.split` raises
    | some vid =>
      let bits := splitOnCharL '.' vid
      match verseText with
      | none => ([], { st with halted := true })  -- `None.strip` raises
      | some vt =>
        if ¬ (pyStrip vt).isEmpty then
          -- the special-source encoding fixups on lines 1198-1201 apply
          -- only to one hard-coded download URL and are not modelled
          (("verseContents#").data ++ bits.getD 2 [] ++ '#' :: vt, st)
        else
          (("verseContainer.").data ++ bits.getD 2 [], st)

/-! ## CanonicalBible: `InternalBible.guessXRefBBB` (source lines 459-598) -/

/-- The name-lookup state of an `InternalBible`: the four dictionaries and
the `guesses` history string (source lines 109-110, all initially empty). -/
structure GuessState where
  bookNameDict : List (PStr × PStr)
  combinedBookNameDict : List (PStr × PStr)
  bookAbbrevDict : List (PStr × PStr)
  reverseDict : List (PStr × PStr)
  guesses : PStr
  deriving DecidableEq

/-- Which branch of `guessXRefBBB` produced the outcome.  `assertTripped`
models the unguarded `assert` on source line 483 failing, and `halted` the
crashes inside the first-letter tier (`halt` on an empty book name, or
`adjRefString[0]` on an empty input). -/
inductive GuessTier
  | codeTable | wholeName | wholeAbbrev
  | startsWith1 | startsWith1Second | startsWith2 | startsWith2Second
  | wordStartsWith | firstLetterPlus
  | noGuess | assertTripped | halted
  deriving DecidableEq

/-- The `Guessed {!r} to be {} (tag)` history line. -/
def guessedMsg (ref BBB tag : PStr) : PStr :=
  ("Guessed ").data ++ pyRepr ref ++ (" to be ").data ++ BBB ++ (" (").data ++ tag ++ (")").data

/-- `self.guesses += ('\n' if self.guesses else '') + msg`. -/
def addGuess (guesses msg : PStr) : PStr :=
  guesses ++ (if guesses ≠ [] then ['\n'] else []) ++ msg

/-- The bookkeeping repeated on every successful deep tier: cache the
resolution in `bookAbbrevDict`, record the guess, and (except in the
first-letter tier, which omits it) remember the reverse mapping. -/
def cacheGuess (st : GuessState) (ref adj BBB tag : PStr) (withReverse : Bool) : GuessState :=
  { st with bookAbbrevDict := assocSet adj BBB st.bookAbbrevDict,
            guesses := addGuess st.guesses (guessedMsg ref BBB tag),
            reverseDict := if withReverse then assocSet BBB ref st.reverseDict else st.reverseDict }

/-- Python `bookName.split()`: split on whitespace runs, dropping empties
(book names use single spaces). -/
def splitWS (s : PStr) : List PStr :=
  (splitOnCharL ' ' s).filter (fun w => !w.isEmpty)

/-- The failure tail of `guessXRefBBB` (source lines 594-597): record an
unresolved guess (at most once per truncated input) and return `None`. -/
def guessFail (st : GuessState) (referenceString : PStr) : Option PStr × GuessState × GuessTier :=
  let msg := ("Couldn").data ++ [sq] ++ ("t guess ").data ++ pyRepr (referenceString.take 5)
  let st2 := if ¬ hasSubL msg st.guesses then { st with guesses := addGuess st.guesses msg } else st
  (none, st2, .noGuess)

/-- The first-letter-plus-characters tier (source lines 551-571), reached
with `count` still holding the match count of the earlier tiers. -/
def guessTier6Flow (st : GuessState) (referenceString adj : PStr) (count : Nat) :
    Option PStr × GuessState × GuessTier :=
  if count = 0 then
    if st.bookNameDict.any (fun p => p.1.isEmpty) then (none, st, .halted)
    else if adj.isEmpty ∧ ¬ st.bookNameDict.isEmpty then (none, st, .halted)
    else
      let m6 := st.bookNameDict.filter fun p =>
        p.1.head? = adj.head? && (adj.drop 1).all (fun ch => (p.1.drop 1).contains ch)
      if m6.length = 1 then
        let BBB := (m6.getLast?).elim [] Prod.snd
        (some BBB, cacheGuess st referenceString adj BBB ("firstletter+").data false, .firstLetterPlus)
      else guessFail st referenceString
  else guessFail st referenceString

/-- The word-starts-with tier (source lines 533-548): count every word of
every multi-word book name that starts with the input. -/
def guessWordFlow (st : GuessState) (referenceString adj : PStr) (count : Nat) :
    Option PStr × GuessState × GuessTier :=
  if count = 0 then
    let multi := st.bookNameDict.filter (fun p => p.1.contains ' ')
    let countW := (multi.map fun p => ((splitWS p.1).filter (fun bit => startsWithL bit adj)).length).sum
    if countW = 1 then
      let BBB := ((multi.filter fun p => (splitWS p.1).any (fun bit => startsWithL bit adj)).getLast?).elim [] Prod.snd
      (some BBB, cacheGuess st referenceString adj BBB ("word startswith").data true, .wordStartsWith)
    else guessTier6Flow st referenceString adj countW
  else guessTier6Flow st referenceString adj count

/-- Source lines 510-531: the combined-name tier when nothing matched so
far, or (when exactly two names matched) a literally repeated
process-of-elimination pass over `bookNameDict`. -/
def guessTier2Flow (st : GuessState) (referenceString adj : PStr) (count : Nat) :
    Option PStr × GuessState × GuessTier :=
  if count = 0 then
    let matchesC := st.combinedBookNameDict.filter (fun p => startsWithL p.1 adj)
    if matchesC.length = 1 then
      let BBB := (matchesC.getLast?).elim [] Prod.snd
      (some BBB, cacheGuess st referenceString adj BBB ("startswith2").data true, .startsWith2)
    else guessWordFlow st referenceString adj matchesC.length
  else if count = 2 then
    let matches1 := st.bookNameDict.filter (fun p => startsWithL p.1 adj)
    let m2 := matches1.filter (fun p => (lookupL p.2 st.reverseDict).isNone)
    if m2.length = 1 then
      let BBB := (m2.getLast?).elim [] Prod.snd
      (some BBB, cacheGuess st referenceString adj BBB ("startswith2SECOND").data true, .startsWith2Second)
    else guessWordFlow st referenceString adj count
  else guessWordFlow st referenceString adj count

/-- The prefix-scanning tiers of `guessXRefBBB` (source lines 485-597),
reached only when both whole-name lookups missed. -/
def guessDeep (st : GuessState) (referenceString adj : PStr) :
    Option PStr × GuessState × GuessTier :=
  let matches1 := st.bookNameDict.filter (fun p => startsWithL p.1 adj)
  let count1 := matches1.length
  if count1 = 1 then
    let BBB := (matches1.getLast?).elim [] Prod.snd
    (some BBB, cacheGuess st referenceString adj BBB ("startswith1").data true, .startsWith1)
  else if count1 = 2 then
    let m2 := matches1.filter (fun p => (lookupL p.2 st.reverseDict).isNone)
    if m2.length = 1 then
      let BBB := (m2.getLast?).elim [] Prod.snd
      (some BBB, cacheGuess st referenceString adj BBB ("startswith1SECOND").data true, .startsWith1Second)
    else guessTier2Flow st referenceString adj count1
  else guessTier2Flow st referenceString adj count1

/-- `InternalBible.guessXRefBBB`: resolve a free-text book reference.
`codes` is the external BookRegistry lookup
(`BibleOrgSysGlobals.BibleBooksCodes.getBBB`, not under src/; modelled
from the spec as a pure identifier-validity table).  Returns the resolved
code (or `none`), the updated state, and the branch that decided. -/
def guessXRefBBB (codes : PStr → Option PStr) (st : GuessState) (referenceString : PStr) :
    Option PStr × GuessState × GuessTier :=
  match codes referenceString with
  | some result => (some result, st, .codeTable)
  | none =>
    let adjRefString := pyLower referenceString
    match lookupL adjRefString st.combinedBookNameDict with
    | some BBB =>
      (some BBB, { st with reverseDict := assocSet BBB referenceString st.reverseDict }, .wholeName)
    | none =>
      match lookupL adjRefString st.bookAbbrevDict with
      | some BBB =>
        (some BBB, { st with reverseDict := assocSet BBB referenceString st.reverseDict }, .wholeAbbrev)
      | none =>
        -- the program check on source line 483: an unguarded assert
        if st.reverseDict.any (fun p => p.2 = referenceString) then (none, st, .assertTripped)
        else guessDeep st referenceString adjRefString

/-! ## `InternalBible.getVersification` and `getAddedUnits`
(source lines 601-643) -/

/-- Modelled from the spec: the four per-book versification structures
returned by `InternalBibleBook.getVersification` (class not under src/):
verse counts per chapter, omitted verses, combined-verse ranges, and
reordered verses, each as a list of (chapter, verse) string pairs. -/
structure BookVersification where
  versification : List (PStr × PStr)
  omittedVerses : List (PStr × PStr)
  combinedVerses : List (PStr × PStr)
  reorderedVerses : List (PStr × PStr)
  deriving DecidableEq

/-- The four Bible-wide ordered mappings built by
`InternalBible.getVersification`.  All four are plain dictionaries: the
source returns them unconditionally, with no `None` signal. -/
structure VersificationTotals where
  totalVersification : List (PStr × List (PStr × PStr))
  totalOmittedVerses : List (PStr × List (PStr × PStr))
  totalCombinedVerses : List (PStr × List (PStr × PStr))
  totalReorderedVerses : List (PStr × List (PStr × PStr))
  deriving DecidableEq

/-- The `for BBB in self.books.keys()` loop of source lines 612-617: the
versification entry is always added; the other three only when nonempty. -/
def getVersificationLoop : List (PStr × BookVersification) → VersificationTotals →
    VersificationTotals
  | [], acc => acc
  | (BBB, v) :: rest, acc =>
    getVersificationLoop rest
      { totalVersification := assocSet BBB v.versification acc.totalVersification,
        totalOmittedVerses := if ¬ v.omittedVerses.isEmpty then
            assocSet BBB v.omittedVerses acc.totalOmittedVerses else acc.totalOmittedVerses,
        totalCombinedVerses := if ¬ v.combinedVerses.isEmpty then
            assocSet BBB v.combinedVerses acc.totalCombinedVerses else acc.totalCombinedVerses,
        totalReorderedVerses := if ¬ v.reorderedVerses.isEmpty then
            assocSet BBB v.reorderedVerses acc.totalReorderedVerses else acc.totalReorderedVerses }

/-- `InternalBible.getVersification` over the ordered book mapping. -/
def InternalBible_getVersification (books : List (PStr × BookVersification)) :
    VersificationTotals :=
  getVersificationLoop books ⟨[], [], [], []⟩

/-- Modelled from the spec: the five per-book added-unit lists returned by
`InternalBibleBook.getAddedUnits` (class not under src/). -/
structure BookAddedUnits where
  paragraphReferences : List (PStr × PStr)
  qReferences : List (PStr × PStr)
  sectionHeadings : List (PStr × PStr)
  sectionReferences : List (PStr × PStr)
  wordsOfJesus : List (PStr × PStr)
  deriving DecidableEq

/-- Loop state of `InternalBible.getAddedUnits`: the five `have` flags and
the five `All` dictionaries (which receive an entry for every book, even a
blank one, per the source comment on line 632). -/
structure AddedUnitsAccum where
  haveParagraphs : Bool
  haveQParagraphs : Bool
  haveSectionHeadings : Bool
  haveSectionReferences : Bool
  haveWordsOfJesus : Bool
  AllParagraphs : List (PStr × List (PStr × PStr))
  AllQParagraphs : List (PStr × List (PStr × PStr))
  AllSectionHeadings : List (PStr × List (PStr × PStr))
  AllSectionReferences : List (PStr × List (PStr × PStr))
  AllWordsOfJesus : List (PStr × List (PStr × PStr))
  deriving DecidableEq

/-- The `for BBB in self.books` loop of source lines 629-640. -/
def getAddedUnitsLoop : List (PStr × BookAddedUnits) → AddedUnitsAccum → AddedUnitsAccum
  | [], acc => acc
  | (BBB, u) :: rest, acc =>
    getAddedUnitsLoop rest
      { haveParagraphs := acc.haveParagraphs || !u.paragraphReferences.isEmpty,
        haveQParagraphs := acc.haveQParagraphs || !u.qReferences.isEmpty,
        haveSectionHeadings := acc.haveSectionHeadings || !u.sectionHeadings.isEmpty,
        haveSectionReferences := acc.haveSectionReferences || !u.sectionReferences.isEmpty,
        haveWordsOfJesus := acc.haveWordsOfJesus || !u.wordsOfJesus.isEmpty,
        AllParagraphs := assocSet BBB u.paragraphReferences acc.AllParagraphs,
        AllQParagraphs := assocSet BBB u.qReferences acc.AllQParagraphs,
        AllSectionHeadings := assocSet BBB u.sectionHeadings acc.AllSectionHeadings,
        AllSectionReferences := assocSet BBB u.sectionReferences acc.AllSectionReferences,
        AllWordsOfJesus := assocSet BBB u.wordsOfJesus acc.AllWordsOfJesus }

/-- The five results of `InternalBible.getAddedUnits`: each is `None`
when the feature is absent from every book (source line 642). -/
structure AddedUnitsTotals where
  allParagraphs : Option (List (PStr × List (PStr × PStr)))
  allQParagraphs : Option (List (PStr × List (PStr × PStr)))
  allSectionHeadings : Option (List (PStr × List (PStr × PStr)))
  allSectionReferences : Option (List (PStr × List (PStr × PStr)))
  allWordsOfJesus : Option (List (PStr × List (PStr × PStr)))
  deriving DecidableEq

/-- `InternalBible.getAddedUnits` over the ordered book mapping. -/
def InternalBible_getAddedUnits (books : List (PStr × BookAddedUnits)) : AddedUnitsTotals :=
  let acc := getAddedUnitsLoop books ⟨false, false, false, false, false, [], [], [], [], []⟩
  { allParagraphs := if acc.haveParagraphs then some acc.AllParagraphs else none,
    allQParagraphs := if acc.haveQParagraphs then some acc.AllQParagraphs else none,
    allSectionHeadings := if acc.haveSectionHeadings then some acc.AllSectionHeadings else none,
    allSectionReferences := if acc.haveSectionReferences then some acc.AllSectionReferences else none,
    allWordsOfJesus := if acc.haveWordsOfJesus then some acc.AllWordsOfJesus else none }

instance : Inhabited BookVersification := ⟨⟨[], [], [], []⟩⟩

instance : Inhabited BookAddedUnits := ⟨⟨[], [], [], [], []⟩⟩

/-! ## `InternalBible.getErrors`: the All Books rollup
(source lines 903-1073) -/

/-- A value nested one level down in a per-book error dictionary: a list
of diagnostic strings, or a counts dictionary. -/
inductive NVal
  | vlist (l : List PStr)
  | vcounts (d : List (PStr × Int))
  deriving DecidableEq

/-- A top-level value in a per-book error dictionary: a list (for keys
ending in `Errors`/`List`/`Lines`) or a nested dictionary (for keys like
`SFMs`, `Characters`, `Words`, `Headings`). -/
inductive EVal
  | vlist (l : List PStr)
  | vdict (d : List (PStr × NVal))
  deriving DecidableEq

/-- Modelled from the spec: the error-dictionary fragment returned by one
book's `getErrors` (produced by `InternalBibleBook.check`, not under
src/), as an ordered dictionary with the shapes documented in the
`InternalBible.getErrors` docstring. -/
abbrev BookErrors := List (PStr × EVal)

/-- The key classification on source lines 1051 and 1061. -/
def errSuffixKey (k : PStr) : Bool :=
  endsWithL k ("Errors").data || endsWithL k ("List").data || endsWithL k ("Lines").data

/-- `errors['ByBook']['All Books'][k][a] = []` preceded by creating the
`k` sub-dictionary when missing (pre-initialization, source lines
1037-1038).  A list already stored under `k` would make the source raise;
unreachable for dictionaries produced by the book checks. -/
def dictEnsureSetNested (allBooks : List (PStr × EVal)) (k a : PStr) : List (PStr × EVal) :=
  match lookupL k allBooks with
  | some (.vdict d0) => assocSet k (.vdict (assocSet a (.vlist []) d0)) allBooks
  | some (.vlist _) => allBooks
  | none => assocSet k (.vdict [(a, .vlist [])]) allBooks

/-- Pre-initialization for one key of one book (source lines 1030-1040):
`Errors`-suffixed top-level keys are (re)set to fresh empty lists so the
error lists come first; other non-`List`/`Lines` keys have their
`Errors`-suffixed subkeys pre-created.  Iterating a top-level list value
here visits its string elements as `anotherKey`. -/
def preInitEntry (allBooks : List (PStr × EVal)) (k : PStr) (v : EVal) : List (PStr × EVal) :=
  if endsWithL k ("Errors").data then assocSet k (.vlist []) allBooks
  else if ¬ endsWithL k ("List").data ∧ ¬ endsWithL k ("Lines").data then
    match v with
    | .vdict d => d.foldl (fun ab p =>
        if endsWithL p.1 ("Errors").data then dictEnsureSetNested ab k p.1 else ab) allBooks
    | .vlist l => l.foldl (fun ab s =>
        if endsWithL s ("Errors").data then dictEnsureSetNested ab k s else ab) allBooks
  else allBooks

def preInitBook (allBooks : List (PStr × EVal)) (book : BookErrors) : List (PStr × EVal) :=
  book.foldl (fun ab p => preInitEntry ab p.1 p.2) allBooks

/-- `getErrors.appendList` with no `secondKey` (source lines 937-940):
create the All Books list if needed, then extend it.  Python
`list.extend` iterates its argument, so extending by a dictionary would
append its keys. -/
def evalExtension : EVal → List PStr
  | .vlist l => l
  | .vdict d => d.map Prod.fst

def extendAllBooksList (allBooks : List (PStr × EVal)) (k : PStr) (ext : List PStr) :
    List (PStr × EVal) :=
  let cur := match lookupL k allBooks with
    | some (.vlist l) => l
    | some (.vdict _) => []  -- the source would raise here; unreachable
    | none => []
  assocSet k (.vlist (cur ++ ext)) allBooks

def nestedExtension : NVal → List PStr
  | .vlist l => l
  | .vcounts d => d.map Prod.fst

/-- `getErrors.appendList` with a `secondKey` (source lines 941-946). -/
def extendAllBooksNested (allBooks : List (PStr × EVal)) (k a : PStr) (ext : List PStr) :
    List (PStr × EVal) :=
  match lookupL k allBooks with
  | some (.vdict d0) =>
    let cur := match lookupL a d0 with
      | some (.vlist l) => l
      | some (.vcounts _) => []  -- the source would raise here; unreachable
      | none => []
    assocSet k (.vdict (assocSet a (.vlist (cur ++ ext)) d0)) allBooks
  | some (.vlist _) => allBooks  -- the source would raise here; unreachable
  | none => assocSet k (.vdict [(a, .vlist ext)]) allBooks

/-- `getErrors.mergeCount` with a `secondKey` (source lines 957-964). -/
def mergeCountNested (allBooks : List (PStr × EVal)) (k a : PStr)
    (bookCounts : List (PStr × Int)) : List (PStr × EVal) :=
  let d0 := match lookupL k allBooks with
    | some (.vdict d0) => d0
    | _ => []
  let cur := match lookupL a d0 with
    | some (.vcounts c) => c
    | _ => []
  let merged := bookCounts.foldl (fun m p =>
    assocSet p.1 (match lookupL p.1 m with | some old => old + p.2 | none => p.2) m) cur
  assocSet k (.vdict (assocSet a (.vcounts merged) d0)) allBooks

/-- The combine step for one top-level key of one book (source lines
1049-1072): list-suffixed keys extend the All Books list; a top-level
`Counts` key would evaluate the undefined name `NEVER_HAPPENS` and raise;
other keys have their sub-entries appended or count-merged. -/
def combineEntry (allBooks : List (PStr × EVal)) (k : PStr) (v : EVal) : List (PStr × EVal) :=
  if errSuffixKey k then extendAllBooksList allBooks k (evalExtension v)
  else if endsWithL k ("Counts").data then allBooks  -- NameError in the source; unreachable
  else
    match v with
    | .vdict d => d.foldl (fun ab p =>
        if errSuffixKey p.1 then extendAllBooksNested ab k p.1 (nestedExtension p.2)
        else if endsWithL p.1 ("Counts").data then
          mergeCountNested ab k p.1 (match p.2 with | .vcounts c => c | .vlist _ => [])
        else ab) allBooks
    | .vlist _ => allBooks
      -- iterating a list value here would make `appendList` index the
      -- book list with a string key and raise; unreachable

def combineBook (allBooks : List (PStr × EVal)) (book : BookErrors) : List (PStr × EVal) :=
  book.foldl (fun ab p => combineEntry ab p.1 p.2) allBooks

/-- The `['ByBook']['All Books']` rollup of `InternalBible.getErrors`
with the default (all books) selection: the pre-initialization loop
(source lines 1027-1040) followed by the combining loop (lines 1043-1072),
both over the books in insertion order.  The `ByCategory` view, the
uncommon-words postprocessing (which writes only under the `Words`
sub-dictionary) and the empty-category cleanup are built alongside in the
source and do not touch the rolled-up top-level lists. -/
def getErrorsAllBooks (books : List (PStr × BookErrors)) : List (PStr × EVal) :=
  (books.map Prod.snd).foldl combineBook ((books.map Prod.snd).foldl preInitBook [])

/-- The list a single book contributes to the All Books rollup under a
list-valued category. -/
def bookContribution (K : PStr) (book : BookErrors) : List PStr :=
  match lookupL K book with
  | some (.vlist l) => l
  | _ => []

/-! ## Concrete example inputs used by the counterexamples and witnesses -/

/-- An empty OSIS parser state, as at the start of a book division
(`BBB = USFMAbbreviation = USFMNumber = ''`, no lines, no saved books). -/
def osisStEmpty : OsisState :=
  ⟨[], [], [], [], [], [], false, false, false, [], false⟩

/-- A small concrete BookRegistry table for Genesis, Exodus and James. -/
def osisTablesEx : OsisTables where
  getBBBFromOSIS s :=
    if s = ("Gen").data then some ("GEN").data
    else if s = ("Exo").data then some ("EXO").data
    else if s = ("Jas").data then some ("JAS").data
    else none
  getUSFMAbbreviation b :=
    if b = ("GEN").data then ("Gen").data
    else if b = ("EXO").data then ("Exo").data
    else if b = ("JAS").data then ("Jas").data
    else []
  getUSFMNumber _ := []

/-- A verse start milestone whose sID ranges inside one chapter. -/
def exVerseRangeSame : OsisElement :=
  ⟨("verse").data,
   [(("osisID").data, ("Jas.1.7-Jas.1.8").data), (("sID").data, ("Jas.1.7-Jas.1.8").data)],
   0, none, none⟩

/-- A verse start milestone whose sID ranges across a chapter boundary. -/
def exVerseRangeCross : OsisElement :=
  ⟨("verse").data,
   [(("osisID").data, ("Jas.1.7-Jas.2.8").data), (("sID").data, ("Jas.1.7-Jas.2.8").data)],
   0, none, none⟩

/-- A verse end milestone for Gen.1.1. -/
def exVerseEnd : OsisElement :=
  ⟨("verse").data, [(("eID").data, ("Gen.1.1").data)], 0, none, none⟩

/-- A chapter end milestone for Gen.2. -/
def exChapterEnd : OsisElement :=
  ⟨("chapter").data, [(("eID").data, ("Gen.2").data)], 0, none, none⟩

/-- A chapter start milestone for Exo.1. -/
def exChapterStartExo : OsisElement :=
  ⟨("chapter").data,
   [(("osisID").data, ("Exo.1").data), (("sID").data, ("Exo.1").data)], 0, none, none⟩

/-- A parser state in the middle of Genesis with a small 2-line book. -/
def osisStGenSmall : OsisState :=
  { osisStEmpty with BBB := ("GEN").data, USFMAbbreviation := ("Gen").data,
                     thisBook := [(("c").data, ("1").data), (("v").data, ("1 ").data)] }

/-- A parser state in the middle of Genesis with a 6-line book, enough to
pass the `> 5` save guard. -/
def osisStGenBig : OsisState :=
  { osisStEmpty with BBB := ("GEN").data, USFMAbbreviation := ("Gen").data,
                     thisBook := [(("c").data, ("1").data), (("v").data, ("1 ").data),
                                  (("v").data, ("2 ").data), (("v").data, ("3 ").data),
                                  (("v").data, ("4 ").data), (("v").data, ("5 ").data)] }

/-- A code table in which only `PRO` is a valid canonical book code. -/
def codesEx : PStr → Option PStr :=
  fun s => if s = ("PRO").data then some ("PRO").data else none

/-- An `InternalBible` name-lookup state with no books saved yet. -/
def gStEmpty : GuessState := ⟨[], [], [], [], []⟩

/-- An `InternalBible` name-lookup state knowing one book name. -/
def gStGen : GuessState := ⟨[(("genesis").data, ("GEN").data)], [], [], [], []⟩

/-- A Genesis versification record with no omitted, combined or reordered
verses. -/
def bvGenNoFeatures : BookVersification := ⟨[(("1").data, ("31").data)], [], [], []⟩

/-- A Genesis added-units record with every feature absent. -/
def buGenNoFeatures : BookAddedUnits := ⟨[], [], [], [], []⟩

/-- Two per-book error dictionaries, each contributing a list under the
`Load Errors` category (the first also carries an `SFMs` sub-dictionary). -/
def errBooksEx : List (PStr × BookErrors) :=
  [(("GEN").data,
    [(("Load Errors").data, EVal.vlist [("g1").data, ("g2").data]),
     (("SFMs").data, EVal.vdict [(("Possible Errors").data, NVal.vlist [("x").data]),
                                 (("Marker Counts").data, NVal.vcounts [(("id").data, 1)])])]),
   (("EXO").data, [(("Load Errors").data, EVal.vlist [("e1").data])])]

/-- Refinement reference for C4, following the claim text: scanning the
line after the backslash, the marker token ends at the first space
(dropped), asterisk (kept as the final marker character) or further
backslash (not consumed, left as the first text character); with no
delimiter the whole remainder is the marker and the text is empty. -/
def specSplitMarker : PStr → PStr × PStr
  | [] => ([], [])
  | c :: rest =>
    if c = ' ' then ([], rest)
    else if c = '*' then ([c], rest)
    else if c = '\\' then ([], c :: rest)
    else
      let p := specSplitMarker rest
      (c :: p.1, p.2)

/-! ## Theorems settling the claims -/

/-- C5 (code_bug evaluation): `USFMFile.read` does not skip a single
undecodable line and continue; the `except UnicodeError` wraps the whole
`for` loop, so the decode error ends the read.  On the failing input (a
marker line, an undecodable line, a second marker line) only the entries
before the error survive and the second marker line is never parsed,
while the same file without the bad line yields both entries. -/
theorem C5_decode_error_stops_read :
    USFMFile_read ("f").data 1 []
        [.good ("\\id GEN\n").data, .bad, .good ("\\mt Genesis\n").data]
      = ([(("id").data, ("GEN").data)], [invalidLineMsg ("f").data 1])
    ∧ USFMFile_read ("f").data 1 []
        [.good ("\\id GEN\n").data, .good ("\\mt Genesis\n").data]
      = ([(("id").data, ("GEN").data), (("mt").data, ("Genesis").data)], []) := by
  decide

/-- C6 (code_bug evaluation): a non-blank, non-comment, non-marker line
arriving before any entry exists is NOT discarded: the branch on source
lines 149-155 has no `continue`, so control falls through to the
marker-splitting code with `line[1:]` and the mangled pair
`("ello", "world")` is appended.  At verbosity above 2 the log even claims
the line was ignored while the entry is still appended. -/
theorem C6_leading_nonmarker_parsed :
    USFMFile_read ("f").data 1 [] [.good ("hello world\n").data]
      = ([(("ello").data, ("world").data)], [])
    ∧ USFMFile_read ("f").data 3 [] [.good ("hello world\n").data]
      = ([(("ello").data, ("world").data)], [nonUSFMLineMsg ("f").data 1]) := by
  decide

/-- C1 (counterexample): two DIFFERENT verse-range sIDs, `Jas.1.7-Jas.1.8`
and the cross-chapter `Jas.1.7-Jas.2.8`, processed under the same open
chapter `Jas.1`, leave identical parser states (the same single canonical
line `v 7-8` and no diagnostics), so the input range string is NOT
reconstructible from the canonical verse token together with the
enclosing book and chapter. -/
theorem C1_counterexample :
    (validateVerseElement exVerseRangeSame [] ("Jas.1").data ("ld").data osisStEmpty).2.thisBook
      = [(("v").data, ("7-8").data)]
    ∧ (validateVerseElement exVerseRangeCross [] ("Jas.1").data ("ld").data osisStEmpty).2
      = (validateVerseElement exVerseRangeSame [] ("Jas.1").data ("ld").data osisStEmpty).2
    ∧ ("Jas.1.7-Jas.1.8").data ≠ ("Jas.1.7-Jas.2.8").data := by
  decide

/-- C2 (counterexample): a verse end milestone `Gen.1.1` arriving while
`Gen.1.2` is the open start milestone appends one diagnostic but CLOSES
the cursor (the function returns the empty milestone, not the retained
open one), contradicting the claim that the open cursor value is
retained for verse end milestones. -/
theorem C2_counterexample :
    (validateVerseElement exVerseEnd ("Gen.1.2").data ("Gen.1").data ("ld").data osisStEmpty).1 = []
    ∧ (validateVerseElement exVerseEnd ("Gen.1.2").data ("Gen.1").data ("ld").data
        osisStEmpty).1 ≠ ("Gen.1.2").data
    ∧ (validateVerseElement exVerseEnd ("Gen.1.2").data ("Gen.1").data ("ld").data
        osisStEmpty).2.loadErrors
      = [msgVerseEndMismatch ("Gen.1.2").data ("Gen.1.1").data
          (("validateVerseElement: ").data ++ ("ld").data)] := by
  decide

/-- C3 (counterexample): a chapter start milestone `Exo.1` arriving while
the current Genesis book holds only 2 lines does NOT finalize the book:
`saveBook` is reached only behind the `len(self.thisBook._rawLines) > 5`
guard, so the book registry stays empty, the accumulated Genesis lines
are discarded, and the new Exodus book starts with its `c` line. -/
theorem C3_counterexample :
    (validateChapterElement osisTablesEx exChapterStartExo ("Gen.1").data [] ("ld").data
        osisStGenSmall).2.books = []
    ∧ (validateChapterElement osisTablesEx exChapterStartExo ("Gen.1").data [] ("ld").data
        osisStGenSmall).2.thisBook = [(("c").data, ("1").data)]
    ∧ (validateChapterElement osisTablesEx exChapterStartExo ("Gen.1").data [] ("ld").data
        osisStGenSmall).2.BBB = ("EXO").data := by
  decide

/-- C7 (counterexample): for an input that is already a valid canonical
book code (`PRO`), the repeated call returns the same code but is served
by the external code-table tier again, NOT from the memoized
`combinedBookNameDict`/`bookAbbrevDict` lookups: the lowercased key never
enters either dictionary. -/
theorem C7_counterexample :
    guessXRefBBB codesEx gStEmpty ("PRO").data
      = (some ("PRO").data, gStEmpty, GuessTier.codeTable)
    ∧ lookupL (pyLower ("PRO").data)
        ((guessXRefBBB codesEx gStEmpty ("PRO").data).2.1).combinedBookNameDict = none
    ∧ lookupL (pyLower ("PRO").data)
        ((guessXRefBBB codesEx gStEmpty ("PRO").data).2.1).bookAbbrevDict = none := by
  decide

/-- C8 (counterexample): on a Bible whose single loaded book has no
omitted, combined or reordered verses, `getVersification` reports the
absent features as EMPTY collections (its unconditional returns have no
`None` signal), while `getAddedUnits` on an equally featureless book does
return the explicit absence signal, refuting the claim that both
functions signal absence with `None`. -/
theorem C8_counterexample :
    (InternalBible_getVersification [(("GEN").data, bvGenNoFeatures)]).totalOmittedVerses = []
    ∧ (InternalBible_getVersification [(("GEN").data, bvGenNoFeatures)]).totalCombinedVerses = []
    ∧ (InternalBible_getVersification [(("GEN").data, bvGenNoFeatures)]).totalReorderedVerses = []
    ∧ (InternalBible_getAddedUnits [(("GEN").data, buGenNoFeatures)]).allParagraphs
      = none :=
  ⟨by decide, by decide, by decide, by decide⟩

/-- C10 (counterexample): `clean` on `"abc\n"` (which contains an LF)
silently strips the trailing newline and appends NO diagnostic to the
supplied loadErrors list, refuting the claim that a diagnostic is
appended whenever CR/LF characters were present in the input. -/
theorem C10_counterexample :
    clean (some ("abc\n").data) (some []) none none = (some ("abc").data, some [])
    ∧ '\n' ∈ ("abc\n").data := by
  decide

/-! ### Supporting lemmas for the marker-split claim C4 -/

theorem dummy_value_eq : DUMMY_VALUE = 999999 := rfl

theorem pyFindIdx_lt_length {p : Char → Bool} :
    ∀ {l : PStr} {i : Nat}, pyFindIdx p l = some i → i < l.length := by
  intro l
  induction l with
  | nil => intro i h; simp [pyFindIdx] at h
  | cons c t ih =>
    intro i h
    simp only [pyFindIdx] at h
    split at h
    · cases h; simp only [List.length_cons]; omega
    · cases hf : pyFindIdx p t with
      | none => rw [hf] at h; simp at h
      | some j =>
        rw [hf] at h
        simp only [Option.map_some'] at h
        cases h
        have := ih hf
        simp only [List.length_cons]; omega

def shiftD (n : Nat) : Nat := if n = DUMMY_VALUE then DUMMY_VALUE else n + 1

theorem findOrDummy_cases (x : Char) (l : PStr) :
    findOrDummy x l = DUMMY_VALUE ∨ findOrDummy x l < l.length := by
  unfold findOrDummy
  cases h : pyFindIdx (· == x) l with
  | none => exact Or.inl rfl
  | some i => exact Or.inr (pyFindIdx_lt_length h)

theorem findOrDummy_shift (x c : Char) (t : PStr) (hxc : ¬ c = x)
    (ht : t.length < DUMMY_VALUE) :
    findOrDummy x (c :: t) = shiftD (findOrDummy x t) := by
  unfold findOrDummy shiftD
  have hbc : (c == x) = false := by simp [hxc]
  simp only [pyFindIdx, hbc, Bool.false_eq_true, if_false]
  cases hf : pyFindIdx (· == x) t with
  | none => simp
  | some i =>
    have hi : i < t.length := pyFindIdx_lt_length hf
    simp only [Option.map_some']
    rw [if_neg (by rw [dummy_value_eq] at ht ⊢; omega)]

theorem findOrDummy_self (x : Char) (t : PStr) : findOrDummy x (x :: t) = 0 := by
  simp [findOrDummy, pyFindIdx]

theorem shiftD_ne_zero (n : Nat) : shiftD n ≠ 0 := by
  unfold shiftD
  split
  · rw [dummy_value_eq]; omega
  · omega

theorem shiftD_small {n : Nat} (h : ¬ n = DUMMY_VALUE) : shiftD n = n + 1 := by
  simp [shiftD, h]

theorem shiftD_min (a b : Nat) (_ha : a = 999999 ∨ a + 1 < 999999)
    (_hb : b = 999999 ∨ b + 1 < 999999) :
    min (shiftD a) (shiftD b) = shiftD (min a b) := by
  unfold shiftD
  rw [dummy_value_eq]
  split_ifs <;> omega

theorem shiftD_eq_dummy_iff (a : Nat) (ha : a = 999999 ∨ a + 1 < 999999) :
    (shiftD a = DUMMY_VALUE) = (a = DUMMY_VALUE) := by
  unfold shiftD
  rw [dummy_value_eq]
  apply propext
  split_ifs <;> omega

theorem shiftD_inj_iff (a b : Nat) (ha : a = 999999 ∨ a + 1 < 999999)
    (hb : b = 999999 ∨ b + 1 < 999999) :
    (shiftD a = shiftD b) = (a = b) := by
  unfold shiftD
  rw [dummy_value_eq]
  apply propext
  split_ifs <;> omega

theorem readSplit_cons_nondelim (c : Char) (t : PStr) (hsp : ¬ c = ' ')
    (hst : ¬ c = '*') (hbs : ¬ c = '\\') (ht : t.length < DUMMY_VALUE) :
    readSplit (c :: t) = (c :: (readSplit t).1, (readSplit t).2) := by
  have e1 := findOrDummy_shift ' ' c t hsp ht
  have e2 := findOrDummy_shift '*' c t hst ht
  have e3 := findOrDummy_shift '\\' c t hbs ht
  have c1 := findOrDummy_cases ' ' t
  have c2 := findOrDummy_cases '*' t
  have c3 := findOrDummy_cases '\\' t
  rw [dummy_value_eq] at c1 c2 c3 ht
  have hb1 : findOrDummy ' ' t = 999999 ∨ findOrDummy ' ' t + 1 < 999999 := by omega
  have hb2 : findOrDummy '*' t = 999999 ∨ findOrDummy '*' t + 1 < 999999 := by omega
  have hb3 : findOrDummy '\\' t = 999999 ∨ findOrDummy '\\' t + 1 < 999999 := by omega
  have hb23 : min (findOrDummy '*' t) (findOrDummy '\\' t) = 999999 ∨
      min (findOrDummy '*' t) (findOrDummy '\\' t) + 1 < 999999 := by omega
  have hbm : min (findOrDummy ' ' t) (min (findOrDummy '*' t) (findOrDummy '\\' t)) = 999999 ∨
      min (findOrDummy ' ' t) (min (findOrDummy '*' t) (findOrDummy '\\' t)) + 1 < 999999 := by
    omega
  simp only [readSplit, ne_eq, e1, e2, e3,
    shiftD_min _ _ hb2 hb3, shiftD_min _ _ hb1 hb23,
    shiftD_eq_dummy_iff _ hbm,
    shiftD_inj_iff _ _ hbm hb3, shiftD_inj_iff _ _ hbm hb2]
  by_cases hA : min (findOrDummy ' ' t) (min (findOrDummy '*' t) (findOrDummy '\\' t))
      = DUMMY_VALUE
  · rw [if_neg (not_not_intro hA), if_neg (not_not_intro hA)]
  · rw [if_pos hA, if_pos hA]
    rw [dummy_value_eq] at hA
    by_cases hB : min (findOrDummy ' ' t) (min (findOrDummy '*' t) (findOrDummy '\\' t))
        = findOrDummy '\\' t
    · have h3d : ¬ findOrDummy '\\' t = DUMMY_VALUE := by rw [dummy_value_eq]; omega
      rw [if_pos hB, if_pos hB, shiftD_small h3d]
      simp only [List.take_succ_cons, List.drop_succ_cons]
    · rw [if_neg hB, if_neg hB]
      by_cases hC : min (findOrDummy ' ' t) (min (findOrDummy '*' t) (findOrDummy '\\' t))
          = findOrDummy '*' t
      · have h2d : ¬ findOrDummy '*' t = DUMMY_VALUE := by rw [dummy_value_eq]; omega
        rw [if_pos hC, if_pos hC, shiftD_small h2d]
        simp only [List.take_succ_cons, List.drop_succ_cons]
      · have h1d : ¬ findOrDummy ' ' t = DUMMY_VALUE := by rw [dummy_value_eq]; omega
        rw [if_neg hC, if_neg hC, shiftD_small h1d]
        simp only [List.take_succ_cons, List.drop_succ_cons]

theorem readSplit_eq_spec :
    ∀ (rest : PStr), rest.length < DUMMY_VALUE → readSplit rest = specSplitMarker rest := by
  intro rest
  induction rest with
  | nil => intro _; rfl
  | cons c t ih =>
    intro h
    have ht : t.length < DUMMY_VALUE := by
      rw [dummy_value_eq] at h ⊢; simp only [List.length_cons] at h; omega
    by_cases hsp : c = ' '
    · subst hsp
      have e1 := findOrDummy_self ' ' t
      have e2 := findOrDummy_shift '*' ' ' t (by decide) ht
      have e3 := findOrDummy_shift '\\' ' ' t (by decide) ht
      have h2 : ¬ ((0 : Nat) = shiftD (findOrDummy '*' t)) :=
        fun hh => shiftD_ne_zero _ hh.symm
      have h3 : ¬ ((0 : Nat) = shiftD (findOrDummy '\\' t)) :=
        fun hh => shiftD_ne_zero _ hh.symm
      simp [readSplit, specSplitMarker, e1, e2, e3, dummy_value_eq, h2, h3]
    · by_cases hst : c = '*'
      · subst hst
        have e1 := findOrDummy_shift ' ' '*' t (by decide) ht
        have e2 := findOrDummy_self '*' t
        have e3 := findOrDummy_shift '\\' '*' t (by decide) ht
        have h1 : ¬ ((0 : Nat) = shiftD (findOrDummy ' ' t)) :=
          fun hh => shiftD_ne_zero _ hh.symm
        have h3 : ¬ ((0 : Nat) = shiftD (findOrDummy '\\' t)) :=
          fun hh => shiftD_ne_zero _ hh.symm
        simp [readSplit, specSplitMarker, e1, e2, e3, dummy_value_eq, h1, h3]
      · by_cases hbs : c = '\\'
        · subst hbs
          have e1 := findOrDummy_shift ' ' '\\' t (by decide) ht
          have e2 := findOrDummy_shift '*' '\\' t (by decide) ht
          have e3 := findOrDummy_self '\\' t
          have h1 : ¬ ((0 : Nat) = shiftD (findOrDummy ' ' t)) :=
            fun hh => shiftD_ne_zero _ hh.symm
          have h2 : ¬ ((0 : Nat) = shiftD (findOrDummy '*' t)) :=
            fun hh => shiftD_ne_zero _ hh.symm
          simp [readSplit, specSplitMarker, e1, e2, e3, dummy_value_eq, h1, h2]
        · rw [readSplit_cons_nondelim c t hsp hst hbs ht, ih ht]
          simp only [specSplitMarker, if_neg hsp, if_neg hst, if_neg hbs]

theorem splitMarkerText_eq_readSplit (rest : PStr) :
    splitMarkerText ('\\' :: rest) = (some (readSplit rest).1, (readSplit rest).2) := by
  simp only [splitMarkerText, readSplit, ne_eq]
  simp only [not_true, if_false]
  by_cases hd : min (findOrDummy ' ' rest) (min (findOrDummy '*' rest) (findOrDummy '\\' rest))
      = DUMMY_VALUE
  · rw [if_pos hd, if_neg (not_not_intro hd)]
  · rw [if_neg hd, if_pos hd]
    by_cases hB : min (findOrDummy ' ' rest) (min (findOrDummy '*' rest) (findOrDummy '\\' rest))
        = findOrDummy '\\' rest
    · rw [if_pos hB, if_pos hB]
    · rw [if_neg hB, if_neg hB]
      by_cases hC : min (findOrDummy ' ' rest) (min (findOrDummy '*' rest) (findOrDummy '\\' rest))
          = findOrDummy '*' rest
      · rw [if_pos hC, if_pos hC]
      · rw [if_neg hC, if_neg hC]

theorem pyFindIdx_none_forall {p : Char → Bool} :
    ∀ {l : PStr}, pyFindIdx p l = none → ∀ c ∈ l, p c = false := by
  intro l
  induction l with
  | nil => intro _ c hc; cases hc
  | cons d t ih =>
    intro h c hc
    simp only [pyFindIdx] at h
    by_cases hd : p d
    · rw [if_pos hd] at h; cases h
    · rw [if_neg hd] at h
      have ht : pyFindIdx p t = none := by
        cases hf : pyFindIdx p t with
        | none => rfl
        | some j => rw [hf] at h; simp at h
      rcases List.mem_cons.mp hc with rfl | hc2
      · simpa using hd
      · exact ih ht c hc2

theorem specSplitMarker_no_delim :
    ∀ (l : PStr), (∀ c ∈ l, (c == ' ' || c == '*' || c == '\\') = false) →
      specSplitMarker l = (l, []) := by
  intro l
  induction l with
  | nil => intro _; rfl
  | cons c t ih =>
    intro h
    have hc := h c (by simp)
    simp only [Bool.or_eq_false_iff, beq_eq_false_iff_ne, ne_eq] at hc
    simp only [specSplitMarker, if_neg hc.1.1, if_neg hc.1.2, if_neg hc.2,
      ih (fun d hd => h d (by simp [hd]))]

/-- C4: for every line that begins with the backslash sigil (and is
shorter than the `DUMMY_VALUE` sentinel, the assumption the source
documents for its find-based index arithmetic), `splitMarkerText` and the
identical inline logic of `USFMFile.read` (`readSplit`) end the marker
token at the first of: a space (dropped from the text), an asterisk (kept
as the final marker character), or another backslash (not consumed, so it
remains the first character of the text); a pure marker line yields the
whole remainder as marker and empty text.  `specSplitMarker` is the
direct scanner stating exactly that contract. -/
theorem C4_marker_split (rest : PStr) (h : rest.length < DUMMY_VALUE) :
    splitMarkerText ('\\' :: rest) = (some (specSplitMarker rest).1, (specSplitMarker rest).2)
    ∧ readSplit rest = specSplitMarker rest
    ∧ (pyFindIdx (fun c => c == ' ' || c == '*' || c == '\\') rest = none →
        splitMarkerText ('\\' :: rest) = (some rest, [])) := by
  have hr := readSplit_eq_spec rest h
  have hs := splitMarkerText_eq_readSplit rest
  refine ⟨by rw [hs, hr], hr, ?_⟩
  intro hnone
  have hnd := specSplitMarker_no_delim rest (pyFindIdx_none_forall hnone)
  rw [hs, hr, hnd]

/-- Witness for C4 at the concrete line `\v 1`. -/
theorem C4_witness :
    (splitMarkerText ('\\' :: ("v 1").data)
        = (some (specSplitMarker (("v 1").data)).1, (specSplitMarker (("v 1").data)).2)
      ∧ readSplit (("v 1").data) = specSplitMarker (("v 1").data)
      ∧ (pyFindIdx (fun c => c == ' ' || c == '*' || c == '\\') (("v 1").data) = none →
          splitMarkerText ('\\' :: ("v 1").data) = (some (("v 1").data), [])))
    ∧ splitMarkerText (("\\v 1").data) = (some (("v").data), ("1").data) :=
  ⟨C4_marker_split (("v 1").data) (by decide), by decide⟩

/-! ### Supporting lemmas and amended statement for the clean claim C10 -/

theorem replaceCRLF_props (l : PStr) :
    (∀ c ∈ replaceCRLF l, c = ' ' ∨ c ∈ l) ∧ '\n' ∉ replaceCRLF l ∧ '\r' ∉ replaceCRLF l := by
  induction l using replaceCRLF.induct with
  | case1 => simp [replaceCRLF]
  | case2 rest ih =>
    refine ⟨?_, ?_, ?_⟩
    · intro c hc
      rcases List.mem_cons.mp hc with rfl | hc2
      · exact Or.inl rfl
      · rcases ih.1 c hc2 with h | h
        · exact Or.inl h
        · exact Or.inr (by simp [h])
    · intro hc
      rcases List.mem_cons.mp hc with h | h
      · cases h
      · exact ih.2.1 h
    · intro hc
      rcases List.mem_cons.mp hc with h | h
      · cases h
      · exact ih.2.2 h
  | case3 c rest hne ih =>
    rw [replaceCRLF.eq_3 c rest hne]
    refine ⟨?_, ?_, ?_⟩
    · intro x hx
      rcases List.mem_cons.mp hx with rfl | hx2
      · by_cases hc : c = '\n' ∨ c = '\r'
        · rw [if_pos hc]; exact Or.inl rfl
        · rw [if_neg hc]; exact Or.inr (List.mem_cons_self c rest)
      · rcases ih.1 x hx2 with h | h
        · exact Or.inl h
        · exact Or.inr (List.mem_cons_of_mem c h)
    · intro hx
      rcases List.mem_cons.mp hx with h | h
      · by_cases hc : c = '\n' ∨ c = '\r'
        · rw [if_pos hc] at h; cases h
        · rw [if_neg hc] at h; exact hc (Or.inl h.symm)
      · exact ih.2.1 h
    · intro hx
      rcases List.mem_cons.mp hx with h | h
      · by_cases hc : c = '\n' ∨ c = '\r'
        · rw [if_pos hc] at h; cases h
        · rw [if_neg hc] at h; exact hc (Or.inr h.symm)
      · exact ih.2.2 h

theorem mem_collapseSpaces {x : Char} :
    ∀ {l : PStr}, x ∈ collapseSpaces l → x ∈ l := by
  intro l
  induction l with
  | nil => intro h; cases h
  | cons c rest ih =>
    intro h
    simp only [collapseSpaces] at h
    by_cases hcs : c = ' ' ∧ (collapseSpaces rest).head? = some ' '
    · rw [if_pos hcs] at h
      exact List.mem_cons_of_mem c (ih h)
    · rw [if_neg hcs] at h
      rcases List.mem_cons.mp h with rfl | h2
      · exact List.mem_cons_self x rest
      · exact List.mem_cons_of_mem c (ih h2)

theorem startsWithL_singleton (l : PStr) (x : Char) :
    startsWithL l [x] = (l.head? == some x) := by
  cases l with
  | nil => rfl
  | cons c t => simp [startsWithL, List.head?]

theorem collapseSpaces_no_double :
    ∀ (l : PStr), hasSubL [' ', ' '] (collapseSpaces l) = false := by
  intro l
  induction l with
  | nil => rfl
  | cons c rest ih =>
    simp only [collapseSpaces]
    by_cases hcs : c = ' ' ∧ (collapseSpaces rest).head? = some ' '
    · rw [if_pos hcs]; exact ih
    · rw [if_neg hcs]
      simp only [hasSubL, startsWithL, ih, Bool.or_false]
      rw [startsWithL_singleton]
      rcases Decidable.not_and_iff_or_not.mp hcs with h | h
      · simp [h]
      · simp [h]

theorem tabMap_not_tab (l : PStr) : '\t' ∉ l.map (fun a => if a = '\t' then ' ' else a) := by
  intro h
  rcases List.mem_map.mp h with ⟨a, _, ha⟩
  by_cases h1 : a = '\t' <;> simp [h1] at ha

theorem tabMap_mem_iff {c : Char} (hc1 : ¬ c = ' ') (hc2 : ¬ c = '\t') (l : PStr) :
    c ∈ l.map (fun a => if a = '\t' then ' ' else a) ↔ c ∈ l := by
  constructor
  · intro h
    rcases List.mem_map.mp h with ⟨a, hal, ha⟩
    by_cases h1 : a = '\t'
    · rw [if_pos h1] at ha; exact absurd ha.symm hc1
    · rw [if_neg h1] at ha; exact ha ▸ hal
  · intro h
    exact List.mem_map.mpr ⟨c, h, by rw [if_neg hc2]⟩

theorem collapse_not_mem {x : Char} {l : PStr} (h : x ∉ l) : x ∉ collapseSpaces l :=
  fun hm => h (mem_collapseSpaces hm)

theorem replaceCRLF_not_mem {x : Char} (hx : ¬ x = ' ') {l : PStr} (h : x ∉ l) :
    x ∉ replaceCRLF l :=
  fun hm => ((replaceCRLF_props l).1 x hm).elim (fun he => hx he) h

/-- C10 (amended): `clean` is total on optional strings (`None` maps to
`None`) and establishes the whitespace normal form: trailing newlines and
carriage returns are stripped, and the result contains no tab, no CR, no
LF and no two consecutive spaces.  Diagnostics are appended to a supplied
loadErrors list exactly when, AFTER the silent trailing-newline strip,
the text still holds two consecutive spaces, a tab, or an internal CR/LF;
purely trailing CR/LF characters are stripped without any diagnostic
(see the counterexample). -/
theorem C10_clean_normal_form (s : PStr) (le : List PStr) (loc vm : Option PStr) :
    clean none (some le) loc vm = (none, some le)
    ∧ ∃ t msgs, clean (some s) (some le) loc vm = (some t, some (le ++ msgs))
      ∧ '\t' ∉ t ∧ '\n' ∉ t ∧ '\r' ∉ t ∧ hasSubL [' ', ' '] t = false
      ∧ (msgs = [] ↔
          hasSubL [' ', ' '] (dropTrailingNL s) = false
          ∧ '\t' ∉ dropTrailingNL s
          ∧ '\n' ∉ dropTrailingNL s ∧ '\r' ∉ dropTrailingNL s) := by
  refine ⟨rfl, ?_⟩
  simp only [clean, appendErr, Option.map_some']
  set r := dropTrailingNL s with hr
  set info := cleanInfo loc vm with hinfo
  by_cases hB : r.contains '\t' = true
  · have htab : '\t' ∈ r := by simpa using hB
    rw [if_pos hB, if_pos hB]
    set r1 := r.map (fun a => if a = '\t' then ' ' else a) with hr1
    have hr1tab : '\t' ∉ r1 := tabMap_not_tab r
    by_cases hC : (r1.contains '\n' || r1.contains '\r') = true
    · rw [if_pos hC, if_pos hC]
      have hnt : '\n' ∉ collapseSpaces (replaceCRLF r1) :=
        collapse_not_mem ((replaceCRLF_props r1).2.1)
      have hrt : '\r' ∉ collapseSpaces (replaceCRLF r1) :=
        collapse_not_mem ((replaceCRLF_props r1).2.2)
      have htt : '\t' ∉ collapseSpaces (replaceCRLF r1) :=
        collapse_not_mem (replaceCRLF_not_mem (by decide) hr1tab)
      by_cases hA : hasSubL [' ', ' '] r = true
      · rw [if_pos hA]
        exact ⟨_, [msgMultipleSpaces r info, msgTab r info, msgCRLF r1 info],
          by simp, htt, hnt, hrt, collapseSpaces_no_double _, by simp [hA]⟩
      · rw [if_neg hA]
        exact ⟨_, [msgTab r info, msgCRLF r1 info],
          by simp, htt, hnt, hrt, collapseSpaces_no_double _, by simp [htab]⟩
    · rw [if_neg hC, if_neg hC]
      have hn1 : '\n' ∉ r1 := by
        intro hm; apply hC; simp [hm]
      have hq1 : '\r' ∉ r1 := by
        intro hm; apply hC; simp [hm]
      by_cases hA : hasSubL [' ', ' '] r = true
      · rw [if_pos hA]
        exact ⟨_, [msgMultipleSpaces r info, msgTab r info],
          by simp, collapse_not_mem hr1tab, collapse_not_mem hn1, collapse_not_mem hq1,
          collapseSpaces_no_double _, by simp [hA]⟩
      · rw [if_neg hA]
        exact ⟨_, [msgTab r info],
          by simp, collapse_not_mem hr1tab, collapse_not_mem hn1, collapse_not_mem hq1,
          collapseSpaces_no_double _, by simp [htab]⟩
  · have htab : '\t' ∉ r := by simpa using hB
    rw [if_neg hB, if_neg hB]
    by_cases hC : (r.contains '\n' || r.contains '\r') = true
    · rw [if_pos hC, if_pos hC]
      have hcr : '\n' ∈ r ∨ '\r' ∈ r := by
        rcases Bool.or_eq_true_iff.mp hC with h | h
        · exact Or.inl (by simpa using h)
        · exact Or.inr (by simpa using h)
      have hnt : '\n' ∉ collapseSpaces (replaceCRLF r) :=
        collapse_not_mem ((replaceCRLF_props r).2.1)
      have hrt : '\r' ∉ collapseSpaces (replaceCRLF r) :=
        collapse_not_mem ((replaceCRLF_props r).2.2)
      have htt : '\t' ∉ collapseSpaces (replaceCRLF r) :=
        collapse_not_mem (replaceCRLF_not_mem (by decide) htab)
      by_cases hA : hasSubL [' ', ' '] r = true
      · rw [if_pos hA]
        refine ⟨_, [msgMultipleSpaces r info, msgCRLF r info],
          by simp, htt, hnt, hrt, collapseSpaces_no_double _, by simp [hA]⟩
      · rw [if_neg hA]
        refine ⟨_, [msgCRLF r info],
          by simp, htt, hnt, hrt, collapseSpaces_no_double _, ?_⟩
        rcases hcr with h | h <;> simp [h]
    · rw [if_neg hC, if_neg hC]
      have hn1 : '\n' ∉ r := by
        intro hm; apply hC; simp [hm]
      have hq1 : '\r' ∉ r := by
        intro hm; apply hC; simp [hm]
      by_cases hA : hasSubL [' ', ' '] r = true
      · rw [if_pos hA]
        exact ⟨_, [msgMultipleSpaces r info],
          by simp, collapse_not_mem htab, collapse_not_mem hn1, collapse_not_mem hq1,
          collapseSpaces_no_double _, by simp [hA]⟩
      · rw [if_neg hA]
        exact ⟨_, [],
          by simp, collapse_not_mem htab, collapse_not_mem hn1, collapse_not_mem hq1,
          collapseSpaces_no_double _,
          by simp [Bool.not_eq_true] at hA; simp [hA, htab, hn1, hq1]⟩

/-! ### Supporting lemmas and amended statement for the aggregation claim C8 -/

theorem assocSet_ne_nil {α : Type} (k : PStr) (v : α) (d : List (PStr × α)) :
    assocSet k v d ≠ [] := by
  cases d with
  | nil => simp [assocSet]
  | cons p rest =>
    simp only [assocSet]
    split <;> simp

theorem getAddedUnitsLoop_flags (books : List (PStr × BookAddedUnits)) :
    ∀ (acc : AddedUnitsAccum),
      (getAddedUnitsLoop books acc).haveParagraphs
        = (acc.haveParagraphs || books.any (fun b => !b.2.paragraphReferences.isEmpty))
      ∧ (getAddedUnitsLoop books acc).haveQParagraphs
        = (acc.haveQParagraphs || books.any (fun b => !b.2.qReferences.isEmpty))
      ∧ (getAddedUnitsLoop books acc).haveSectionHeadings
        = (acc.haveSectionHeadings || books.any (fun b => !b.2.sectionHeadings.isEmpty))
      ∧ (getAddedUnitsLoop books acc).haveSectionReferences
        = (acc.haveSectionReferences || books.any (fun b => !b.2.sectionReferences.isEmpty))
      ∧ (getAddedUnitsLoop books acc).haveWordsOfJesus
        = (acc.haveWordsOfJesus || books.any (fun b => !b.2.wordsOfJesus.isEmpty)) := by
  induction books with
  | nil => intro acc; simp [getAddedUnitsLoop]
  | cons b rest ih =>
    intro acc
    obtain ⟨B, u⟩ := b
    simp only [getAddedUnitsLoop, List.any_cons]
    refine ⟨?_, ?_, ?_, ?_, ?_⟩ <;>
      simp [ (ih _).1, (ih _).2.1, (ih _).2.2.1, (ih _).2.2.2.1, (ih _).2.2.2.2,
        Bool.or_assoc]

theorem updateField_eq_nil_iff (k : PStr) (v : List (PStr × PStr))
    (d : List (PStr × List (PStr × PStr))) :
    ((if ¬ v.isEmpty = true then assocSet k v d else d) = []) ↔ (v = [] ∧ d = []) := by
  by_cases he : v.isEmpty = true
  · have hv : v = [] := by simpa [List.isEmpty_iff] using he
    rw [if_neg (not_not_intro he)]
    simp [hv]
  · have hv : ¬ v = [] := by simpa [List.isEmpty_iff] using he
    rw [if_pos he]
    simp [hv, assocSet_ne_nil k v d]

theorem getVersificationLoop_empties (books : List (PStr × BookVersification)) :
    ∀ (acc : VersificationTotals),
      ((getVersificationLoop books acc).totalOmittedVerses = []
        ↔ acc.totalOmittedVerses = [] ∧ ∀ b ∈ books, b.2.omittedVerses = [])
      ∧ ((getVersificationLoop books acc).totalCombinedVerses = []
        ↔ acc.totalCombinedVerses = [] ∧ ∀ b ∈ books, b.2.combinedVerses = [])
      ∧ ((getVersificationLoop books acc).totalReorderedVerses = []
        ↔ acc.totalReorderedVerses = [] ∧ ∀ b ∈ books, b.2.reorderedVerses = []) := by
  induction books with
  | nil => intro acc; simp [getVersificationLoop]
  | cons b rest ih =>
    intro acc
    obtain ⟨B, v⟩ := b
    simp only [getVersificationLoop, List.forall_mem_cons]
    refine ⟨?_, ?_, ?_⟩
    · rw [(ih _).1]
      simp only [updateField_eq_nil_iff]
      tauto
    · rw [(ih _).2.1]
      simp only [updateField_eq_nil_iff]
      tauto
    · rw [(ih _).2.2]
      simp only [updateField_eq_nil_iff]
      tauto

/-- C8 (amended): `getAddedUnits` reports a feature entirely absent
across all books with the explicit absence signal `None`; but
`getVersification` returns its four ordered mappings unconditionally, so
a feature absent everywhere yields an EMPTY mapping (the equivalences
below show emptiness coincides exactly with absence in every book), with
no `None` signal (see the counterexample). -/
theorem C8_absence_signals (bv : List (PStr × BookVersification))
    (bu : List (PStr × BookAddedUnits)) :
    ((InternalBible_getAddedUnits bu).allParagraphs = none
      ↔ ∀ b ∈ bu, b.2.paragraphReferences = [])
    ∧ ((InternalBible_getAddedUnits bu).allQParagraphs = none
      ↔ ∀ b ∈ bu, b.2.qReferences = [])
    ∧ ((InternalBible_getAddedUnits bu).allSectionHeadings = none
      ↔ ∀ b ∈ bu, b.2.sectionHeadings = [])
    ∧ ((InternalBible_getAddedUnits bu).allSectionReferences = none
      ↔ ∀ b ∈ bu, b.2.sectionReferences = [])
    ∧ ((InternalBible_getAddedUnits bu).allWordsOfJesus = none
      ↔ ∀ b ∈ bu, b.2.wordsOfJesus = [])
    ∧ ((InternalBible_getVersification bv).totalOmittedVerses = []
      ↔ ∀ b ∈ bv, b.2.omittedVerses = [])
    ∧ ((InternalBible_getVersification bv).totalCombinedVerses = []
      ↔ ∀ b ∈ bv, b.2.combinedVerses = [])
    ∧ ((InternalBible_getVersification bv).totalReorderedVerses = []
      ↔ ∀ b ∈ bv, b.2.reorderedVerses = []) := by
  have hf := getAddedUnitsLoop_flags bu ⟨false, false, false, false, false, [], [], [], [], []⟩
  have hv := getVersificationLoop_empties bv ⟨[], [], [], []⟩
  refine ⟨?_, ?_, ?_, ?_, ?_, ?_, ?_, ?_⟩
  · simp [InternalBible_getAddedUnits, hf.1, ite_eq_right_iff, List.any_eq_false,
      List.isEmpty_iff]
  · simp [InternalBible_getAddedUnits, hf.2.1, ite_eq_right_iff, List.any_eq_false,
      List.isEmpty_iff]
  · simp [InternalBible_getAddedUnits, hf.2.2.1, ite_eq_right_iff, List.any_eq_false,
      List.isEmpty_iff]
  · simp [InternalBible_getAddedUnits, hf.2.2.2.1, ite_eq_right_iff, List.any_eq_false,
      List.isEmpty_iff]
  · simp [InternalBible_getAddedUnits, hf.2.2.2.2, ite_eq_right_iff, List.any_eq_false,
      List.isEmpty_iff]
  · rw [InternalBible_getVersification, hv.1]; simp
  · rw [InternalBible_getVersification, hv.2.1]; simp
  · rw [InternalBible_getVersification, hv.2.2]; simp

/-! ### Supporting lemmas and amended statements for the OSIS milestone
claims C1, C2 and C3 -/

theorem splitOnCharL_no_sep (sep : Char) :
    ∀ (l : PStr), sep ∉ l → splitOnCharL sep l = [l] := by
  intro l
  induction l with
  | nil => intro _; rfl
  | cons a t ih =>
    intro h
    have ha : ¬ a = sep := fun hh => h (hh ▸ List.mem_cons_self a t)
    have ht : sep ∉ t := fun hh => h (List.mem_cons_of_mem a hh)
    simp only [splitOnCharL, if_neg ha, ih ht]

theorem splitOnCharL_append (sep : Char) (x rest : PStr) (hx : sep ∉ x) :
    splitOnCharL sep (x ++ sep :: rest) = x :: splitOnCharL sep rest := by
  induction x with
  | nil => simp [splitOnCharL]
  | cons a t ih =>
    have ha : ¬ a = sep := fun hh => hx (hh ▸ List.mem_cons_self a t)
    have ht : sep ∉ t := fun hh => hx (List.mem_cons_of_mem a hh)
    simp only [List.cons_append, splitOnCharL, if_neg ha, ih ht]
    cases hsplit : splitOnCharL sep (t ++ sep :: rest) with
    | nil =>
      rw [ih ht] at hsplit
      cases hsplit
    | cons s ss =>
      rw [ih ht] at hsplit
      cases hsplit
      rfl

theorem countCharL_once (ob cn : PStr) (hob : '.' ∉ ob) (hon : '.' ∉ cn) :
    countCharL '.' (ob ++ '.' :: cn) = 1 := by
  have h1 : ob.filter (fun c => c == '.') = [] := by
    rw [List.filter_eq_nil_iff]
    intro a ha
    simp only [beq_iff_eq]
    intro h
    exact hob (h ▸ ha)
  have h2 : cn.filter (fun c => c == '.') = [] := by
    rw [List.filter_eq_nil_iff]
    intro a ha
    simp only [beq_iff_eq]
    intro h
    exact hon (h ▸ ha)
  simp [countCharL, List.filter_append, List.filter_cons, h1, h2]

theorem hyphen_join_inj (v1 : PStr) :
    ∀ (w1 v2 w2 : PStr), '-' ∉ v1 → '-' ∉ w1 →
      v1 ++ '-' :: v2 = w1 ++ '-' :: w2 → v1 = w1 ∧ v2 = w2 := by
  induction v1 with
  | nil =>
    intro w1 v2 w2 _ h2 he
    cases w1 with
    | nil => simpa using he
    | cons b t =>
      simp only [List.nil_append, List.cons_append, List.cons.injEq] at he
      exact absurd (he.1 ▸ List.mem_cons_self b t) h2
  | cons a t ih =>
    intro w1 v2 w2 h1 h2 he
    cases w1 with
    | nil =>
      simp only [List.nil_append, List.cons_append, List.cons.injEq] at he
      exact absurd (he.1 ▸ List.mem_cons_self a t) h1
    | cons b t2 =>
      simp only [List.cons_append, List.cons.injEq] at he
      have ht1 : '-' ∉ t := fun hh => h1 (List.mem_cons_of_mem a hh)
      have ht2 : '-' ∉ t2 := fun hh => h2 (List.mem_cons_of_mem b hh)
      obtain ⟨rfl, he2⟩ := he
      obtain ⟨rfl, rfl⟩ := ih t2 v2 w2 ht1 ht2 he2
      exact ⟨rfl, rfl⟩

/-- C1 (amended): a verse start milestone whose sID is the range
`b.c.v1-b.c.v2` (both endpoints sharing the enclosing book and chapter of
the open `b.c` chapter milestone) emits exactly one canonical `v` line
whose text is the combined token `v1-v2`, and that token determines `v1`
and `v2` (the join on the hyphen is injective for hyphen-free verse
numbers), so the input range string is reconstructible from the canonical
verse token together with the enclosing book and chapter.  For ranges
whose endpoints differ in book or chapter the reconstruction fails: see
the counterexample, where a cross-chapter range collapses to the very
same state. -/
theorem C1_range_verse_line (b c v1 v2 w1 w2 vmIn tag loc : PStr) (st : OsisState)
    (hb : '.' ∉ b ∧ '-' ∉ b) (hc : '.' ∉ c ∧ '-' ∉ c)
    (hv1 : '.' ∉ v1 ∧ '-' ∉ v1) (hv2 : '.' ∉ v2 ∧ '-' ∉ v2)
    (hw1 : '-' ∉ w1)
    (hEIDs : st.haveEIDs = false)
    (hnc : startsWithL (b ++ '.' :: c) (("chapterContainer.").data) = false) :
    validateVerseElement
        ⟨tag,
         [(("osisID").data,
           b ++ '.' :: (c ++ '.' :: (v1 ++ '-' :: (b ++ '.' :: (c ++ '.' :: v2))))),
          (("sID").data,
           b ++ '.' :: (c ++ '.' :: (v1 ++ '-' :: (b ++ '.' :: (c ++ '.' :: v2)))))],
         0, none, none⟩
        vmIn (b ++ '.' :: c) loc st
      = (b ++ '.' :: (c ++ '.' :: (v1 ++ '-' :: (b ++ '.' :: (c ++ '.' :: v2)))),
         { st with thisBook := st.thisBook ++ [(("v").data, v1 ++ '-' :: v2)] })
    ∧ (v1 ++ '-' :: v2 = w1 ++ '-' :: w2 → v1 = w1 ∧ v2 = w2) := by
  refine ⟨?_, fun he => hyphen_join_inj v1 w1 v2 w2 hv1.2 hw1 he⟩
  set range := b ++ '.' :: (c ++ '.' :: (v1 ++ '-' :: (b ++ '.' :: (c ++ '.' :: v2)))) with hrange
  have hfold : verseAttrFold tag (("validateVerseElement: ").data ++ loc)
      [(("osisID").data, range), (("sID").data, range)] {}
      = (⟨some range, some range, none, none⟩, []) := rfl
  have hne : range ≠ [] := by simp [hrange]
  have hm : '-' ∈ range := by simp [hrange]
  have hxnot : '-' ∉ (b ++ '.' :: (c ++ '.' :: v1)) := by
    simp [List.mem_append, List.mem_cons, hb.2, hc.2, hv1.2]
  have hynot : '-' ∉ (b ++ '.' :: (c ++ '.' :: v2)) := by
    simp [List.mem_append, List.mem_cons, hb.2, hc.2, hv2.2]
  have hassoc : range = (b ++ '.' :: (c ++ '.' :: v1)) ++ '-' :: (b ++ '.' :: (c ++ '.' :: v2)) := by
    simp [hrange, List.append_assoc]
  have hchunks : splitOnCharL '-' range
      = [b ++ '.' :: (c ++ '.' :: v1), b ++ '.' :: (c ++ '.' :: v2)] := by
    rw [hassoc, splitOnCharL_append '-' _ _ hxnot, splitOnCharL_no_sep '-' _ hynot]
  have hbits1 : splitOnCharL '.' (b ++ '.' :: (c ++ '.' :: v1)) = [b, c, v1] := by
    rw [splitOnCharL_append '.' b _ hb.1, splitOnCharL_append '.' c _ hc.1,
      splitOnCharL_no_sep '.' v1 hv1.1]
  have hbits2 : splitOnCharL '.' (b ++ '.' :: (c ++ '.' :: v2)) = [b, c, v2] := by
    rw [splitOnCharL_append '.' b _ hb.1, splitOnCharL_append '.' c _ hc.1,
      splitOnCharL_no_sep '.' v2 hv2.1]
  have hvmBits : splitOnCharL '.' range
      = b :: c :: splitOnCharL '.' (v1 ++ '-' :: (b ++ '.' :: (c ++ '.' :: v2))) := by
    rw [hrange, splitOnCharL_append '.' b _ hb.1, splitOnCharL_append '.' c _ hc.1]
  have hcm : splitOnCharL '.' (b ++ '.' :: c) = [b, c] := by
    rw [splitOnCharL_append '.' b _ hb.1, splitOnCharL_no_sep '.' c hc.1]
  simp only [validateVerseElement, hfold]
  simp [pyTruthy, List.isEmpty_iff, hne, hm, hchunks, hbits1, hbits2, hnc, hEIDs,
    hvmBits, hcm, clean, addLine]

/-- Witness for C1 at the concrete range `Jas.1.7-Jas.1.8`. -/
theorem C1_witness :
    validateVerseElement exVerseRangeSame [] (("Jas.1").data) ("ld").data osisStEmpty
      = (("Jas.1.7-Jas.1.8").data,
         { osisStEmpty with thisBook := [(("v").data, ("7-8").data)] })
    ∧ (("7").data ++ '-' :: ("8").data = ("7").data ++ '-' :: ("8").data →
        ("7").data = ("7").data ∧ ("8").data = ("8").data) := by
  have h := C1_range_verse_line ("Jas").data ("1").data ("7").data ("8").data
    ("7").data ("8").data [] ("verse").data ("ld").data osisStEmpty
    (by decide) (by decide) (by decide) (by decide) (by decide) (by decide) (by decide)
  exact h

/-- C2 (amended): an end milestone that does not match the open start
milestone appends a diagnostic to loadErrors and never raises, but the
recovery differs by walker: `validateChapterElement` retains the open
cursor value (returning it unchanged, plus a second `Missing chapter ID`
diagnostic), while `validateVerseElement` CLOSES the cursor, returning
the empty milestone rather than retaining the open one (see the
counterexample). -/
theorem C2_end_milestone_mismatch (tables : OsisTables) (eid opn loc tag cm : PStr)
    (st : OsisState) (hopen : opn ≠ []) (hne : ¬ eid = opn) (heid : eid ≠ []) :
    validateVerseElement ⟨tag, [(("eID").data, eid)], 0, none, none⟩ opn cm loc st
      = ([], { st with haveEIDs := true, loadErrors := st.loadErrors ++
          [msgVerseEndMismatch opn eid (("validateVerseElement: ").data ++ loc)] })
    ∧ validateChapterElement tables ⟨tag, [(("eID").data, eid)], 0, none, none⟩ opn [] loc st
      = (opn, { st with loadErrors := st.loadErrors ++
          [msgChapterEndMismatch eid opn (("validateChapterElement: ").data ++ loc),
           msgMissingChapterIDFor opn (("validateChapterElement: ").data ++ loc)] }) := by
  constructor
  · have hfold : verseAttrFold tag (("validateVerseElement: ").data ++ loc)
        [(("eID").data, eid)] {} = (⟨none, none, some eid, none⟩, []) := rfl
    simp only [validateVerseElement, hfold]
    simp [pyTruthy, List.isEmpty_iff, heid, hopen, hne]
  · have hfold : chapAttrFold tag (("validateChapterElement: ").data ++ loc)
        [(("eID").data, eid)] {} = (⟨none, none, some eid, none, none, none⟩, []) := rfl
    simp only [validateChapterElement, checkXMLNoText, checkXMLNoTail, hfold]
    simp [pyTruthy, List.isEmpty_iff, heid, hopen, hne]

/-- Witness for C2 at the end milestone `Gen.1.1` against the open
milestone `Gen.1.2`. -/
theorem C2_witness :
    validateVerseElement exVerseEnd ("Gen.1.2").data ("Gen.1").data ("ld").data osisStEmpty
      = ([], { osisStEmpty with haveEIDs := true, loadErrors :=
          [msgVerseEndMismatch ("Gen.1.2").data ("Gen.1.1").data
            (("validateVerseElement: ").data ++ ("ld").data)] })
    ∧ validateChapterElement osisTablesEx
        ⟨("verse").data, [(("eID").data, ("Gen.1.1").data)], 0, none, none⟩
        ("Gen.1.2").data [] ("ld").data osisStEmpty
      = (("Gen.1.2").data, { osisStEmpty with loadErrors :=
          [msgChapterEndMismatch ("Gen.1.1").data ("Gen.1.2").data
            (("validateChapterElement: ").data ++ ("ld").data),
           msgMissingChapterIDFor ("Gen.1.2").data
            (("validateChapterElement: ").data ++ ("ld").data)] }) := by
  have h := C2_end_milestone_mismatch osisTablesEx ("Gen.1.1").data ("Gen.1.2").data
    ("ld").data ("verse").data ("Gen.1").data osisStEmpty
    (by decide) (by decide) (by decide)
  exact h

/-- C3 (amended): when a chapter start milestone `ob.cn` implies a book
`nb` different from the book `st.BBB` currently being built, the walker
starts a new empty book for `nb` (whose lines then accumulate after its
`c` line) in both cases, but it finalizes and saves the current book ONLY
when that book holds more than 5 raw lines; a current book with 5 or
fewer lines is silently discarded, never reaching `saveBook` (see the
counterexample). -/
theorem C3_book_switch (tables : OsisTables) (ob cn vmIn tag loc nb : PStr) (st : OsisState)
    (hob : '.' ∉ ob) (hon : '.' ∉ cn)
    (htb : tables.getBBBFromOSIS ob = some nb)
    (hnb : ¬ nb = st.BBB) (hB : st.BBB ≠ []) (hEIDs : st.haveEIDs = false) :
    (st.thisBook.length > 5 →
      validateChapterElement tables
          ⟨tag, [(("osisID").data, ob ++ '.' :: cn), (("sID").data, ob ++ '.' :: cn)],
           0, none, none⟩ [] vmIn loc st
        = ([], { st with
                 books := saveBook st.BBB (finalizedOldBook st) st.books, foundH := false,
                 BBB := nb, USFMAbbreviation := tables.getUSFMAbbreviation nb,
                 USFMNumber := tables.getUSFMNumber nb,
                 thisBook := [(("c").data, cn)], haveBook := true }))
    ∧ (st.thisBook.length ≤ 5 →
      validateChapterElement tables
          ⟨tag, [(("osisID").data, ob ++ '.' :: cn), (("sID").data, ob ++ '.' :: cn)],
           0, none, none⟩ [] vmIn loc st
        = (ob ++ '.' :: cn, { st with
                 BBB := nb, USFMAbbreviation := tables.getUSFMAbbreviation nb,
                 USFMNumber := tables.getUSFMNumber nb,
                 thisBook := [(("c").data, cn)], haveBook := true })) := by
  have hfold : chapAttrFold tag (("validateChapterElement: ").data ++ loc)
      [(("osisID").data, ob ++ '.' :: cn), (("sID").data, ob ++ '.' :: cn)] {}
      = (⟨some (ob ++ '.' :: cn), some (ob ++ '.' :: cn), none, none, none, none⟩, []) := rfl
  have hcount := countCharL_once ob cn hob hon
  have hbits : splitOnCharL '.' (ob ++ '.' :: cn) = [ob, cn] := by
    rw [splitOnCharL_append '.' ob _ hob, splitOnCharL_no_sep '.' cn hon]
  obtain ⟨B, U, N, m, tb, bks, hbk, he, fh, le, ha⟩ := st
  have he2 : he = false := hEIDs
  subst he2
  have hnb2 : ¬ nb = B := hnb
  have hB2 : B ≠ [] := hB
  constructor
  · intro hlen
    have hlen2 : 5 < tb.length := hlen
    simp only [validateChapterElement, checkXMLNoText, checkXMLNoTail, hfold]
    simp [pyTruthy, List.isEmpty_iff, hcount, hbits, htb, hnb2, hB2,
      chapterBookSwitch, saveBook, addLine, hlen2]
  · intro hlen
    have hlen2 : ¬ 5 < tb.length := by
      have : tb.length ≤ 5 := hlen
      omega
    simp only [validateChapterElement, checkXMLNoText, checkXMLNoTail, hfold]
    simp [pyTruthy, List.isEmpty_iff, hcount, hbits, htb, hnb2, hB2,
      chapterBookSwitch, saveBook, addLine, hlen2]

/-- Witness for C3: the chapter milestone `Exo.1` arriving over a 6-line
Genesis book saves Genesis and begins Exodus. -/
theorem C3_witness :
    validateChapterElement osisTablesEx exChapterStartExo [] [] ("ld").data osisStGenBig
      = ([], { osisStGenBig with
               books := saveBook ("GEN").data (finalizedOldBook osisStGenBig) osisStGenBig.books,
               foundH := false,
               BBB := ("EXO").data,
               USFMAbbreviation := osisTablesEx.getUSFMAbbreviation ("EXO").data,
               USFMNumber := osisTablesEx.getUSFMNumber ("EXO").data,
               thisBook := [(("c").data, ("1").data)], haveBook := true }) := by
  have h := (C3_book_switch osisTablesEx ("Exo").data ("1").data [] ("chapter").data ("ld").data
    ("EXO").data osisStGenBig (by decide) (by decide) (by decide) (by decide) (by decide)
    (by decide)).1 (by decide)
  exact h

/-! ### Supporting lemmas and amended statement for the memoization
claim C7 -/

theorem lookupL_assocSet_self {α : Type} (k : PStr) (v : α) (d : List (PStr × α)) :
    lookupL k (assocSet k v d) = some v := by
  induction d with
  | nil => simp [assocSet, lookupL]
  | cons p rest ih =>
    obtain ⟨k2, v2⟩ := p
    simp only [assocSet]
    by_cases h : k = k2
    · rw [if_pos h]; simp [lookupL]
    · rw [if_neg h]; simp only [lookupL, if_neg h, ih]

theorem lookupL_assocSet_other {α : Type} {K k : PStr} (h : ¬ K = k) (v : α)
    (d : List (PStr × α)) : lookupL K (assocSet k v d) = lookupL K d := by
  induction d with
  | nil => simp [assocSet, lookupL, h]
  | cons p rest ih =>
    obtain ⟨k2, v2⟩ := p
    simp only [assocSet]
    by_cases h2 : k = k2
    · subst h2
      rw [if_pos rfl]
      simp only [lookupL, if_neg h]
    · rw [if_neg h2]
      simp only [lookupL, ih]

theorem guessFail_fst (st : GuessState) (ref : PStr) : (guessFail st ref).1 = none := rfl

theorem guessTier6Flow_success {st : GuessState} {ref adj : PStr} {count : Nat}
    {BBB : PStr} {st2 : GuessState} {t : GuessTier}
    (h : guessTier6Flow st ref adj count = (some BBB, st2, t)) :
    ∃ tag wr, st2 = cacheGuess st ref adj BBB tag wr := by
  have hfail : ∀ s r, guessFail s r = (some BBB, st2, t) → False := by
    intro s r hf
    have := congrArg Prod.fst hf
    rw [guessFail_fst] at this
    cases this
  unfold guessTier6Flow at h
  simp only [] at h
  split at h
  · split at h
    · simp at h
    · split at h
      · simp at h
      · split at h
        · simp only [Prod.mk.injEq, Option.some.injEq] at h
          exact ⟨("firstletter+").data, false, by rw [← h.2.1, ← h.1]⟩
        · exact absurd h (fun hh => hfail _ _ hh)
  · exact absurd h (fun hh => hfail _ _ hh)

theorem guessWordFlow_success {st : GuessState} {ref adj : PStr} {count : Nat}
    {BBB : PStr} {st2 : GuessState} {t : GuessTier}
    (h : guessWordFlow st ref adj count = (some BBB, st2, t)) :
    ∃ tag wr, st2 = cacheGuess st ref adj BBB tag wr := by
  unfold guessWordFlow at h
  simp only [] at h
  split at h
  · split at h
    · simp only [Prod.mk.injEq, Option.some.injEq] at h
      exact ⟨("word startswith").data, true, by rw [← h.2.1, ← h.1]⟩
    · exact guessTier6Flow_success h
  · exact guessTier6Flow_success h

theorem guessTier2Flow_success {st : GuessState} {ref adj : PStr} {count : Nat}
    {BBB : PStr} {st2 : GuessState} {t : GuessTier}
    (h : guessTier2Flow st ref adj count = (some BBB, st2, t)) :
    ∃ tag wr, st2 = cacheGuess st ref adj BBB tag wr := by
  unfold guessTier2Flow at h
  simp only [] at h
  split at h
  · split at h
    · simp only [Prod.mk.injEq, Option.some.injEq] at h
      exact ⟨("startswith2").data, true, by rw [← h.2.1, ← h.1]⟩
    · exact guessWordFlow_success h
  · split at h
    · split at h
      · simp only [Prod.mk.injEq, Option.some.injEq] at h
        exact ⟨("startswith2SECOND").data, true, by rw [← h.2.1, ← h.1]⟩
      · exact guessWordFlow_success h
    · exact guessWordFlow_success h

theorem guessDeep_success {st : GuessState} {ref adj : PStr}
    {BBB : PStr} {st2 : GuessState} {t : GuessTier}
    (h : guessDeep st ref adj = (some BBB, st2, t)) :
    ∃ tag wr, st2 = cacheGuess st ref adj BBB tag wr := by
  unfold guessDeep at h
  simp only [] at h
  split at h
  · simp only [Prod.mk.injEq, Option.some.injEq] at h
    exact ⟨("startswith1").data, true, by rw [← h.2.1, ← h.1]⟩
  · split at h
    · split at h
      · simp only [Prod.mk.injEq, Option.some.injEq] at h
        exact ⟨("startswith1SECOND").data, true, by rw [← h.2.1, ← h.1]⟩
      · exact guessTier2Flow_success h
    · exact guessTier2Flow_success h

/-- C7 (amended): `guessXRefBBB` is idempotent in its result: whenever a
call resolves a reference string to a code, a repeated call with the same
string returns the same code.  A resolution produced by the deep
prefix-scanning tiers is memoized in `bookAbbrevDict` under the lowercased
input, and the repeated call is served from that lookup
(`GuessTier.wholeAbbrev`) without re-running the scanning tiers.  But a
string resolved by the external code table is never entered into
`combinedBookNameDict` or `bookAbbrevDict`: the repeated call is served
by the code table again (see the counterexample). -/
theorem C7_idempotent_cached (codes : PStr → Option PStr) (st : GuessState)
    (ref BBB : PStr) (st2 : GuessState) (tier : GuessTier)
    (h1 : guessXRefBBB codes st ref = (some BBB, st2, tier)) :
    (guessXRefBBB codes st2 ref).1 = some BBB
    ∧ (tier ≠ GuessTier.codeTable ∧ tier ≠ GuessTier.wholeName ∧ tier ≠ GuessTier.wholeAbbrev →
        guessXRefBBB codes st2 ref
          = (some BBB, { st2 with reverseDict := assocSet BBB ref st2.reverseDict },
             GuessTier.wholeAbbrev)) := by
  unfold guessXRefBBB at h1 ⊢
  cases hcodes : codes ref with
  | some r =>
    rw [hcodes] at h1
    simp only [] at h1 ⊢
    simp only [Prod.mk.injEq, Option.some.injEq] at h1
    obtain ⟨hB, hst, ht⟩ := h1
    constructor
    · simp [hB]
    · intro hcontra
      exact absurd ht.symm hcontra.1
  | none =>
    rw [hcodes] at h1
    simp only [] at h1 ⊢
    cases hcomb : lookupL (pyLower ref) st.combinedBookNameDict with
    | some B =>
      rw [hcomb] at h1
      simp only [Prod.mk.injEq, Option.some.injEq] at h1
      obtain ⟨hB, hst, ht⟩ := h1
      constructor
      · rw [← hst]
        simp [hcomb, hB]
      · intro hcontra
        exact absurd ht.symm hcontra.2.1
    | none =>
      rw [hcomb] at h1
      simp only [] at h1
      cases habbrev : lookupL (pyLower ref) st.bookAbbrevDict with
      | some B =>
        rw [habbrev] at h1
        simp only [Prod.mk.injEq, Option.some.injEq] at h1
        obtain ⟨hB, hst, ht⟩ := h1
        constructor
        · rw [← hst]
          simp [hcomb, habbrev, hB]
        · intro hcontra
          exact absurd ht.symm hcontra.2.2
      | none =>
        rw [habbrev] at h1
        simp only [] at h1
        split at h1
        · simp at h1
        · obtain ⟨tag, wr, hst⟩ := guessDeep_success h1
          subst hst
          have hcomb2 : lookupL (pyLower ref)
              (cacheGuess st ref (pyLower ref) BBB tag wr).combinedBookNameDict = none := by
            simpa [cacheGuess] using hcomb
          have habbrev2 : lookupL (pyLower ref)
              (cacheGuess st ref (pyLower ref) BBB tag wr).bookAbbrevDict = some BBB := by
            simp [cacheGuess, lookupL_assocSet_self]
          rw [hcomb2, habbrev2]
          exact ⟨rfl, fun _ => rfl⟩

/-- Witness for C7: `Gen` resolved by the startswith tier from a state
knowing the name `genesis`, then re-resolved from the cache. -/
theorem C7_witness :
    (guessXRefBBB (fun _ => none)
        (cacheGuess gStGen ("Gen").data ("gen").data ("GEN").data ("startswith1").data true)
        ("Gen").data).1 = some (("GEN").data)
    ∧ guessXRefBBB (fun _ => none)
        (cacheGuess gStGen ("Gen").data ("gen").data ("GEN").data ("startswith1").data true)
        ("Gen").data
      = (some (("GEN").data),
         { cacheGuess gStGen ("Gen").data ("gen").data ("GEN").data ("startswith1").data true with
           reverseDict := assocSet ("GEN").data ("Gen").data
             (cacheGuess gStGen ("Gen").data ("gen").data ("GEN").data
               ("startswith1").data true).reverseDict },
         GuessTier.wholeAbbrev) := by
  have h := C7_idempotent_cached (fun _ => none) gStGen ("Gen").data ("GEN").data
    (cacheGuess gStGen ("Gen").data ("gen").data ("GEN").data ("startswith1").data true)
    GuessTier.startsWith1 (by decide)
  exact ⟨h.1, h.2 (by decide)⟩

/-! ### Supporting lemmas and statement for the All Books rollup
claim C9 -/

theorem foldl_keeps {α β : Type} (f : α → β → α) (P : α → Prop) :
    ∀ (l : List β), (∀ a b, b ∈ l → P a → P (f a b)) → ∀ a, P a → P (l.foldl f a) := by
  intro l
  induction l with
  | nil => intro _ a ha; exact ha
  | cons b t ih =>
    intro h a ha
    exact ih (fun x y hy hx => h x y (List.mem_cons_of_mem b hy) hx) _
      (h a b (List.mem_cons_self b t) ha)

theorem dictEnsureSetNested_K_other {K k : PStr} (hk : ¬ K = k) (ab : List (PStr × EVal))
    (a : PStr) : lookupL K (dictEnsureSetNested ab k a) = lookupL K ab := by
  simp only [dictEnsureSetNested]
  split
  · exact lookupL_assocSet_other hk _ _
  · rfl
  · exact lookupL_assocSet_other hk _ _

theorem extendAllBooksList_K_other {K k : PStr} (hk : ¬ K = k) (ab : List (PStr × EVal))
    (ext : List PStr) : lookupL K (extendAllBooksList ab k ext) = lookupL K ab := by
  simp only [extendAllBooksList]
  exact lookupL_assocSet_other hk _ _

theorem extendAllBooksNested_K_other {K k : PStr} (hk : ¬ K = k) (ab : List (PStr × EVal))
    (a : PStr) (ext : List PStr) :
    lookupL K (extendAllBooksNested ab k a ext) = lookupL K ab := by
  simp only [extendAllBooksNested]
  split
  · exact lookupL_assocSet_other hk _ _
  · rfl
  · exact lookupL_assocSet_other hk _ _

theorem mergeCountNested_K_other {K k : PStr} (hk : ¬ K = k) (ab : List (PStr × EVal))
    (a : PStr) (cnts : List (PStr × Int)) :
    lookupL K (mergeCountNested ab k a cnts) = lookupL K ab := by
  simp only [mergeCountNested]
  exact lookupL_assocSet_other hk _ _

theorem combineEntry_K_other {K k : PStr} (hk : ¬ k = K) (ab : List (PStr × EVal)) (v : EVal) :
    lookupL K (combineEntry ab k v) = lookupL K ab := by
  have hk2 : ¬ K = k := fun h => hk h.symm
  simp only [combineEntry]
  split
  · exact extendAllBooksList_K_other hk2 _ _
  · split
    · rfl
    · split
      · refine foldl_keeps _ (fun x => lookupL K x = lookupL K ab) _ ?_ ab rfl
        intro x p _ hx
        split
        · rw [extendAllBooksNested_K_other hk2]; exact hx
        · split
          · rw [mergeCountNested_K_other hk2]; exact hx
          · exact hx
      · rfl

theorem combineEntry_K_self {K : PStr} (hK : errSuffixKey K = true)
    {ab : List (PStr × EVal)} {X : List PStr} (hab : lookupL K ab = some (EVal.vlist X))
    (l : List PStr) :
    lookupL K (combineEntry ab K (EVal.vlist l)) = some (EVal.vlist (X ++ l)) := by
  simp only [combineEntry, if_pos hK, extendAllBooksList, evalExtension]
  simp only [hab]
  exact lookupL_assocSet_self _ _ _

theorem preInitEntry_K_other {K k : PStr} (hk : ¬ k = K) (ab : List (PStr × EVal)) (v : EVal) :
    lookupL K (preInitEntry ab k v) = lookupL K ab := by
  have hk2 : ¬ K = k := fun h => hk h.symm
  simp only [preInitEntry]
  split
  · exact lookupL_assocSet_other hk2 _ _
  · split
    · split
      · refine foldl_keeps _ (fun x => lookupL K x = lookupL K ab) _ ?_ ab rfl
        intro x p _ hx
        split
        · rw [dictEnsureSetNested_K_other hk2]; exact hx
        · exact hx
      · refine foldl_keeps _ (fun x => lookupL K x = lookupL K ab) _ ?_ ab rfl
        intro x s _ hx
        split
        · rw [dictEnsureSetNested_K_other hk2]; exact hx
        · exact hx
    · rfl

theorem preInitEntry_K_self {K : PStr} (hK : endsWithL K ("Errors").data = true)
    (ab : List (PStr × EVal)) (v : EVal) :
    lookupL K (preInitEntry ab K v) = some (EVal.vlist []) := by
  simp only [preInitEntry, if_pos hK]
  exact lookupL_assocSet_self _ _ _

theorem preInitBook_K {K : PStr} (hK : endsWithL K ("Errors").data = true) :
    ∀ (book : BookErrors) (ab : List (PStr × EVal)),
      (lookupL K book).isSome = true ∨ lookupL K ab = some (EVal.vlist []) →
      lookupL K (preInitBook ab book) = some (EVal.vlist []) := by
  intro book
  induction book with
  | nil =>
    intro ab h
    rcases h with h | h
    · simp [lookupL] at h
    · exact h
  | cons p t ih =>
    intro ab h
    obtain ⟨k, v⟩ := p
    have hstep : preInitBook ab ((k, v) :: t) = preInitBook (preInitEntry ab k v) t := rfl
    rw [hstep]
    by_cases hk : k = K
    · subst hk
      exact ih _ (Or.inr (preInitEntry_K_self hK ab v))
    · apply ih
      rcases h with h | h
      · left
        simp only [lookupL, if_neg (fun hh : K = k => hk hh.symm)] at h
        exact h
      · right
        rw [preInitEntry_K_other hk]
        exact h

theorem preInitFold {K : PStr} (hK : endsWithL K ("Errors").data = true) :
    ∀ (l : List BookErrors) (a : List (PStr × EVal)),
      (∀ bk ∈ l, (lookupL K bk).isSome = true) →
      (l ≠ [] ∨ lookupL K a = some (EVal.vlist [])) →
      lookupL K (l.foldl preInitBook a) = some (EVal.vlist []) := by
  intro l
  induction l with
  | nil =>
    intro a _ h
    rcases h with h | h
    · exact absurd rfl h
    · exact h
  | cons bk t ih =>
    intro a hall _
    simp only [List.foldl_cons]
    exact ih _ (fun x hx => hall x (List.mem_cons_of_mem bk hx))
      (Or.inr (preInitBook_K hK bk a (Or.inl (hall bk (List.mem_cons_self bk t)))))

theorem lookupL_eq_some_split {α : Type} {K : PStr} :
    ∀ {d : List (PStr × α)} {v : α}, lookupL K d = some v →
      ∃ pre post, d = pre ++ (K, v) :: post ∧ ∀ p ∈ pre, p.1 ≠ K := by
  intro d
  induction d with
  | nil => intro v h; simp [lookupL] at h
  | cons p t ih =>
    intro v h
    obtain ⟨k2, w⟩ := p
    by_cases hk : K = k2
    · subst hk
      simp [lookupL] at h
      subst h
      exact ⟨[], t, rfl, by simp⟩
    · simp only [lookupL, if_neg hk] at h
      obtain ⟨pre, post, heq, hpre⟩ := ih h
      refine ⟨(k2, w) :: pre, post, by rw [heq, List.cons_append], ?_⟩
      intro p hp
      rcases List.mem_cons.mp hp with rfl | hp2
      · exact fun hh => hk hh.symm
      · exact hpre p hp2

theorem combineBook_K {K : PStr} (hK : errSuffixKey K = true) {bk : BookErrors}
    {l : List PStr} (hnd : (bk.map Prod.fst).Nodup)
    (hlk : lookupL K bk = some (EVal.vlist l))
    {ab : List (PStr × EVal)} {X : List PStr} (hab : lookupL K ab = some (EVal.vlist X)) :
    lookupL K (combineBook ab bk) = some (EVal.vlist (X ++ l)) := by
  obtain ⟨pre, post, heq, hpre⟩ := lookupL_eq_some_split hlk
  subst heq
  have hpost : ∀ p ∈ post, p.1 ≠ K := by
    have hnd2 : (pre.map Prod.fst ++ K :: post.map Prod.fst).Nodup := by
      simpa [List.map_append] using hnd
    have hsub : (K :: post.map Prod.fst).Sublist (pre.map Prod.fst ++ K :: post.map Prod.fst) :=
      List.sublist_append_right _ _
    have hcnd : (K :: post.map Prod.fst).Nodup := List.Nodup.sublist hsub hnd2
    have hnotin : K ∉ post.map Prod.fst := (List.nodup_cons.mp hcnd).1
    intro p hp hpk
    exact hnotin (List.mem_map.mpr ⟨p, hp, hpk⟩)
  unfold combineBook
  rw [List.foldl_append, List.foldl_cons]
  have h1 : lookupL K (pre.foldl (fun ab2 p => combineEntry ab2 p.1 p.2) ab)
      = some (EVal.vlist X) := by
    refine foldl_keeps _ (fun x => lookupL K x = some (EVal.vlist X)) pre ?_ ab hab
    intro x p hp hx
    rw [combineEntry_K_other (hpre p hp)]
    exact hx
  have h2 : lookupL K (combineEntry
      (pre.foldl (fun ab2 p => combineEntry ab2 p.1 p.2) ab) K (EVal.vlist l))
      = some (EVal.vlist (X ++ l)) := combineEntry_K_self hK h1 l
  refine foldl_keeps _ (fun x => lookupL K x = some (EVal.vlist (X ++ l))) post ?_ _ h2
  intro x p hp hx
  rw [combineEntry_K_other (hpost p hp)]
  exact hx

/-- C9: for a nonempty loaded-book sequence in which every book
contributes a list under an `Errors`-suffixed list-valued category `K`
(with dictionary-like unique keys), the `All Books` rollup entry for `K`
equals the concatenation of the per-book lists in book-insertion order. -/
theorem C9_allBooks_rollup (K : PStr) (books : List (PStr × BookErrors))
    (hK : endsWithL K ("Errors").data = true)
    (hne : books ≠ [])
    (hwf : ∀ b ∈ books,
      (b.2.map Prod.fst).Nodup ∧ ∃ l, lookupL K b.2 = some (EVal.vlist l)) :
    lookupL K (getErrorsAllBooks books)
      = some (EVal.vlist ((books.map (fun b => bookContribution K b.2)).flatten)) := by
  have hKs : errSuffixKey K = true := by simp [errSuffixKey, hK]
  unfold getErrorsAllBooks
  have h0 : lookupL K ((books.map Prod.snd).foldl preInitBook []) = some (EVal.vlist []) := by
    apply preInitFold hK
    · intro bk hbk
      obtain ⟨b, hb, rfl⟩ := List.mem_map.mp hbk
      obtain ⟨l, hl⟩ := (hwf b hb).2
      simp [hl]
    · left
      simpa using hne
  have hcombF : ∀ (l : List (PStr × BookErrors)) (a : List (PStr × EVal)) (X : List PStr),
      (∀ b ∈ l, (b.2.map Prod.fst).Nodup ∧ ∃ l0, lookupL K b.2 = some (EVal.vlist l0)) →
      lookupL K a = some (EVal.vlist X) →
      lookupL K ((l.map Prod.snd).foldl combineBook a)
        = some (EVal.vlist (X ++ (l.map (fun b => bookContribution K b.2)).flatten)) := by
    intro l
    induction l with
    | nil => intro a X _ ha; simpa using ha
    | cons b t ih =>
      intro a X hall ha
      have hwfb := hall b (List.mem_cons_self b t)
      obtain ⟨l0, hl0⟩ := hwfb.2
      have hb2 : lookupL K (combineBook a b.2) = some (EVal.vlist (X ++ l0)) :=
        combineBook_K hKs hwfb.1 hl0 ha
      have hres := ih (combineBook a b.2) (X ++ l0)
        (fun x hx => hall x (List.mem_cons_of_mem b hx)) hb2
      simp only [List.map_cons, List.foldl_cons]
      have hcontrib : bookContribution K b.2 = l0 := by
        simp [bookContribution, hl0]
      rw [hres, hcontrib]
      simp [List.append_assoc]
  have := hcombF books _ [] hwf h0
  rw [this]
  simp

/-- Witness for C9 on two concrete books contributing
`[g1, g2]` and `[e1]` under `Load Errors`. -/
theorem C9_witness :
    lookupL (("Load Errors").data) (getErrorsAllBooks errBooksEx)
      = some (EVal.vlist [("g1").data, ("g2").data, ("e1").data]) := by
  have h := C9_allBooks_rollup (("Load Errors").data) errBooksEx (by decide) (by decide)
    (by
      intro b hb
      simp only [errBooksEx, List.mem_cons, List.not_mem_nil, or_false] at hb
      rcases hb with rfl | rfl
      · exact ⟨by decide, ⟨[("g1").data, ("g2").data], by decide⟩⟩
      · exact ⟨by decide, ⟨[("e1").data], by decide⟩⟩)
  exact h.trans (by decide)

end BibleOrgSys
